import Mathlib

/-!
Verification of the ECE monitoring scripts (`monitor_ece_w_api_key.py` and
`monitor_simple.py`) against their natural-language specification.

The scripts are embedded shallowly:

* JSON documents become the inductive type `Json` (numbers are modelled as
  integers, which covers every numeric value the scripts aggregate).
* Python dictionary / list operations (`d[k]`, `d.get`, `k in d`, iteration,
  `len`) become functions on `Json`.  Operations that can raise (`KeyError`,
  `TypeError`, `AttributeError`, `ZeroDivisionError`, `NameError`) return
  `Except String _`, the error being the exception; a `.error` result at the
  top level of `main` models the interpreter aborting with a traceback.
* Python float arithmetic is modelled exactly by integer fractions
  (`PyFloat`): the only float operations performed by the scripts are sums of
  JSON integers, division by the constant 1024, and one ratio of two such
  quantities, all of which are sign-exact in IEEE arithmetic, and the claims
  only depend on branch decisions (`> 0`, division by zero) and on which
  lines are printed.  The decimal rendering of floats (`:.2f`, `:.1%`) is
  abstracted by `PyFloat.fmt`.
* HTTP is modelled by an oracle `fetch : String → Json` giving, for each URL,
  the value `make_api_request` produces for it; `make_api_request` itself is
  modelled over an abstract transport outcome (`HttpOutcome`).
* `print` calls accumulate a `List String`; `sys.exit` / falling off the end
  of `main` become a `RunResult`.
-/

namespace ECE

/-- A JSON value as manipulated by the scripts.  Object fields keep their
insertion order, as Python dictionaries do; the scripts' own object values
never repeat a key (`Json.wf` states that). -/
inductive Json where
  | null
  | bool (b : Bool)
  | num (n : Int)
  | str (s : String)
  | arr (xs : List Json)
  | obj (kvs : List (String × Json))

mutual

/-- Decidable structural equality of JSON values.  The three functions are
one mutual recursion because arrays and objects nest values in lists; no
deriving handler applies to the nested occurrences. -/
def Json.decEq : (a b : Json) → Decidable (a = b)
  | .null, .null => isTrue rfl
  | .bool a, .bool b =>
    match Bool.decEq a b with
    | isTrue h => isTrue (by rw [h])
    | isFalse h => isFalse (fun hh => h (Json.bool.inj hh))
  | .num a, .num b =>
    match Int.instDecidableEq a b with
    | isTrue h => isTrue (by rw [h])
    | isFalse h => isFalse (fun hh => h (Json.num.inj hh))
  | .str a, .str b =>
    match String.decEq a b with
    | isTrue h => isTrue (by rw [h])
    | isFalse h => isFalse (fun hh => h (Json.str.inj hh))
  | .arr a, .arr b =>
    match Json.decEqList a b with
    | isTrue h => isTrue (by rw [h])
    | isFalse h => isFalse (fun hh => h (Json.arr.inj hh))
  | .obj a, .obj b =>
    match Json.decEqFields a b with
    | isTrue h => isTrue (by rw [h])
    | isFalse h => isFalse (fun hh => h (Json.obj.inj hh))
  | .null, .bool _ | .null, .num _ | .null, .str _ | .null, .arr _ | .null, .obj _
  | .bool _, .null | .bool _, .num _ | .bool _, .str _ | .bool _, .arr _ | .bool _, .obj _
  | .num _, .null | .num _, .bool _ | .num _, .str _ | .num _, .arr _ | .num _, .obj _
  | .str _, .null | .str _, .bool _ | .str _, .num _ | .str _, .arr _ | .str _, .obj _
  | .arr _, .null | .arr _, .bool _ | .arr _, .num _ | .arr _, .str _ | .arr _, .obj _
  | .obj _, .null | .obj _, .bool _ | .obj _, .num _ | .obj _, .str _ | .obj _, .arr _ =>
    isFalse (fun h => Json.noConfusion h)

/-- Decidable equality of lists of JSON values. -/
def Json.decEqList : (a b : List Json) → Decidable (a = b)
  | [], [] => isTrue rfl
  | [], _ :: _ => isFalse (fun h => List.noConfusion h)
  | _ :: _, [] => isFalse (fun h => List.noConfusion h)
  | x :: xs, y :: ys =>
    match Json.decEq x y with
    | isTrue h1 =>
      match Json.decEqList xs ys with
      | isTrue h2 => isTrue (by rw [h1, h2])
      | isFalse h2 => isFalse (fun h => h2 (List.cons.inj h).2)
    | isFalse h1 => isFalse (fun h => h1 (List.cons.inj h).1)

/-- Decidable equality of field lists. -/
def Json.decEqFields : (a b : List (String × Json)) → Decidable (a = b)
  | [], [] => isTrue rfl
  | [], _ :: _ => isFalse (fun h => List.noConfusion h)
  | _ :: _, [] => isFalse (fun h => List.noConfusion h)
  | (k, v) :: xs, (l, w) :: ys =>
    match String.decEq k l with
    | isTrue h1 =>
      match Json.decEq v w with
      | isTrue h2 =>
        match Json.decEqFields xs ys with
        | isTrue h3 => isTrue (by rw [h1, h2, h3])
        | isFalse h3 => isFalse (fun h => h3 (List.cons.inj h).2)
      | isFalse h2 =>
        isFalse (fun h => h2 (Prod.mk.inj ((List.cons.inj h).1)).2)
    | isFalse h1 =>
      isFalse (fun h => h1 (Prod.mk.inj ((List.cons.inj h).1)).1)

end

instance : DecidableEq Json := Json.decEq

/-- Decidable equality for `Except` results, used to evaluate the embedded
operations on concrete inputs. -/
def exceptDecEq {ε α : Type} [DecidableEq ε] [DecidableEq α] :
    (a b : Except ε α) → Decidable (a = b)
  | .ok x, .ok y =>
    if h : x = y then isTrue (by rw [h])
    else isFalse (fun hh => h (Except.ok.inj hh))
  | .error x, .error y =>
    if h : x = y then isTrue (by rw [h])
    else isFalse (fun hh => h (Except.error.inj hh))
  | .ok _, .error _ => isFalse (fun h => Except.noConfusion h)
  | .error _, .ok _ => isFalse (fun h => Except.noConfusion h)

instance {ε α : Type} [DecidableEq ε] [DecidableEq α] : DecidableEq (Except ε α) :=
  exceptDecEq

/-- Key lookup in an object's field list (first occurrence, as in a Python
dict, whose keys are unique). -/
def Json.lookup (kvs : List (String × Json)) (k : String) : Option Json :=
  match kvs with
  | [] => none
  | (l, v) :: rest => if l = k then some v else Json.lookup rest k

/-- Python `d[k] = v` on a dict's field list: replaces the value at `k` in
place (keeping the key's original position) or appends a new binding. -/
def Json.insertKV (kvs : List (String × Json)) (k : String) (v : Json) :
    List (String × Json) :=
  match kvs with
  | [] => [(k, v)]
  | (l, w) :: rest =>
    if l = k then (l, v) :: rest else (l, w) :: Json.insertKV rest k v

/-- Python `d[k] = v` at the `Json` level.  The scripts only ever assign into
values that are dicts, so the non-dict case (which cannot arise in the runs
modelled here) leaves the value unchanged. -/
def Json.set (j : Json) (k : String) (v : Json) : Json :=
  match j with
  | .obj kvs => .obj (Json.insertKV kvs k v)
  | other => other

/-- Python `d.update(e)` for dicts: assigns every binding of `e` into `d`,
left to right. -/
def Json.update (j e : Json) : Json :=
  match e with
  | .obj kvs => kvs.foldl (fun acc kv => Json.set acc kv.1 kv.2) j
  | _ => j

/-- Whether a JSON value is a dict holding key `k` (Python `k in d` for a
dict operand). -/
def Json.hasKey (j : Json) (k : String) : Bool :=
  match j with
  | .obj kvs => (Json.lookup kvs k).isSome
  | _ => false

/-- Python truthiness of a JSON value: `None`, `False`, `0`, `""`, `[]` and
an empty dict are falsy. -/
def Json.isTruthy : Json → Bool
  | .null => false
  | .bool b => b
  | .num n => n != 0
  | .str s => s != ""
  | .arr xs => !xs.isEmpty
  | .obj kvs => !kvs.isEmpty

/-- Python `d[k]` (subscript with a string key): on a dict, the value or a
`KeyError`; on anything else a `TypeError`, as for lists and strings a string
index is invalid and numbers are not subscriptable. -/
def Json.sub (j : Json) (k : String) : Except String Json :=
  match j with
  | .obj kvs =>
    match Json.lookup kvs k with
    | some v => .ok v
    | none => .error ("KeyError: " ++ k)
  | _ => .error ("TypeError: value is not subscriptable with string key " ++ k)

/-- Python `d.get(k, default)`: only dicts have `.get`; any other value
raises `AttributeError`. -/
def Json.getPyD (j : Json) (k : String) (d : Json) : Except String Json :=
  match j with
  | .obj kvs =>
    match Json.lookup kvs k with
    | some v => .ok v
    | none => .ok d
  | _ => .error ("AttributeError: no attribute get (key " ++ k ++ ")")

/-- Python `d.get(k)` (default `None`). -/
def Json.getPy (j : Json) (k : String) : Except String Json :=
  Json.getPyD j k .null

/-- Whether the first character list starts the second. -/
def charsStart : List Char → List Char → Bool
  | [], _ => true
  | _ :: _, [] => false
  | a :: as, b :: bs => a == b && charsStart as bs

/-- Whether the first character list occurs inside the second. -/
def charsInside (needle hay : List Char) : Bool :=
  match hay with
  | [] => needle.isEmpty
  | _ :: t => charsStart needle hay || charsInside needle t

/-- Python `x in y` for a string `x`: dict key membership, list membership,
or substring test on a string; a `TypeError` on the remaining values. -/
def Json.containsPy (j : Json) (k : String) : Except String Bool :=
  match j with
  | .obj kvs => .ok (Json.lookup kvs k).isSome
  | .arr xs => .ok (xs.contains (.str k))
  | .str s => .ok (charsInside k.data s.data)
  | _ => .error "TypeError: argument is not iterable"

/-- Python iteration `for x in j`: a list yields its elements, a dict its
keys, a string its characters (as one-character strings); other values raise
`TypeError`. -/
def Json.iterPy (j : Json) : Except String (List Json) :=
  match j with
  | .arr xs => .ok xs
  | .obj kvs => .ok (kvs.map (fun kv => .str kv.1))
  | .str s => .ok (s.data.map (fun c => .str (String.singleton c)))
  | _ => .error "TypeError: object is not iterable"

/-- Python `len(j)`: defined for lists, dicts and strings. -/
def Json.lenPy (j : Json) : Except String Nat :=
  match j with
  | .arr xs => .ok xs.length
  | .obj kvs => .ok kvs.length
  | .str s => .ok s.length
  | _ => .error "TypeError: object has no len"

/-- Python `str(j)` as used inside f-strings.  The scripts only interpolate
strings and numbers on the paths the claims exercise; container values get a
fixed marker, standing in for Python's `repr`-style rendering. -/
def Json.pyStr : Json → String
  | .null => "None"
  | .bool true => "True"
  | .bool false => "False"
  | .num n => toString n
  | .str s => s
  | .arr _ => "<list>"
  | .obj _ => "<dict>"

/-- Whether a JSON value may be a Python dict key / set element (hashable):
containers are not. -/
def Json.hashablePy : Json → Bool
  | .arr _ => false
  | .obj _ => false
  | _ => true

/-- Addition as performed by Python `sum` / `+=` over JSON numbers: any
non-numeric operand raises `TypeError`. -/
def pyAddNum (acc : Int) (j : Json) : Except String Int :=
  match j with
  | .num n => .ok (acc + n)
  | .bool b => .ok (acc + if b then 1 else 0)
  | _ => .error "TypeError: unsupported operand type for +"

mutual

/-- No object anywhere inside the value repeats a key: the well-formedness
every value built from Python dicts enjoys. -/
def Json.wf : Json → Bool
  | .null | .bool _ | .num _ | .str _ => true
  | .arr xs => Json.wfList xs
  | .obj kvs => decide (kvs.map Prod.fst).Nodup && Json.wfFields kvs

/-- Well-formedness of every element of a list of values. -/
def Json.wfList : List Json → Bool
  | [] => true
  | x :: xs => Json.wf x && Json.wfList xs

/-- Well-formedness of every value in a field list. -/
def Json.wfFields : List (String × Json) → Bool
  | [] => true
  | (_, v) :: rest => Json.wf v && Json.wfFields rest

end

/-! ## Python float arithmetic

The scripts compute `sum(...) / 1024` and one ratio of two such quantities.
`PyFloat` carries the exact fraction; branch decisions (`> 0`, zero divisor)
agree with IEEE float semantics on these values, and decimal rendering is
abstracted by `PyFloat.fmt`. -/

/-- The exact value of a Python float expression, as numerator/denominator.
Denominators are the positive constants the code divides by (1024, or a
product involving them). -/
structure PyFloat where
  num : Int
  den : Int
deriving DecidableEq

/-- Python `n / 1024` for an integer sum `n`. -/
def PyFloat.by1024 (n : Int) : PyFloat := ⟨n, 1024⟩

/-- Python `q > 0` on a float: the sign of the exact fraction. -/
def PyFloat.gtZero (q : PyFloat) : Bool := decide (0 < q.num * q.den)

/-- Python float division `a / b`: raises `ZeroDivisionError` when `b` is
zero. -/
def PyFloat.div (a b : PyFloat) : Except String PyFloat :=
  if b.num = 0 then .error "ZeroDivisionError: float division by zero"
  else .ok ⟨a.num * b.den, a.den * b.num⟩

/-- Decimal rendering of a float (`:.2f`, `:.1%`): abstracted to the exact
fraction. The claims depend on which line is printed, never on the digits. -/
def PyFloat.fmt (q : PyFloat) : String := toString q.num ++ "/" ++ toString q.den

/-! ## The HTTP fetcher (`make_api_request`, both scripts)

`monitor_ece_w_api_key.py` lines 21-56 and `monitor_simple.py` lines 12-21:
both scripts issue `requests.get`, call `raise_for_status()`, and return
`response.json()`, turning `HTTPError` and `RequestException` into error
records. -/

/-- The observable outcome of one `requests.get` call: either a transport
failure (DNS, connection, timeout - `requests.exceptions.RequestException`),
or a response with a status code, a body text, and the JSON value the body
parses to (`none` when the body is not JSON, in which case `response.json()`
raises `requests.exceptions.JSONDecodeError`, a `RequestException`). -/
inductive HttpOutcome where
  | transportError (msg : String)
  | response (status : Nat) (text : String) (body : Option Json)

/-- The error record built in the `except requests.exceptions.HTTPError`
branch. -/
def mkHTTPErrorRecord (status : Nat) (text : String) : Json :=
  .obj [("error", .str "HTTPError"), ("status_code", .num status),
        ("details", .str text)]

/-- The error record built in the `except requests.exceptions.RequestException`
branch. -/
def mkRequestExceptionRecord (msg : String) : Json :=
  .obj [("error", .str "RequestException"), ("details", .str msg)]

/-- Whether `response.raise_for_status()` raises: it does exactly for status
codes in `[400, 600)` (client and server errors); any other code, including
600 and above, passes through silently. -/
def raiseForStatusRaises (status : Nat) : Bool :=
  decide (400 ≤ status) && decide (status < 600)

/-- The fetcher (`make_api_request` in both scripts, modulo the diagnostic
prints): a total function from the transport outcome to the value the caller
receives - the function never lets an exception escape. -/
def make_api_request (o : HttpOutcome) : Json :=
  match o with
  | .transportError msg => mkRequestExceptionRecord msg
  | .response status text body =>
    if raiseForStatusRaises status then mkHTTPErrorRecord status text
    else
      match body with
      | some j => j
      | none => mkRequestExceptionRecord ("JSONDecodeError: " ++ text)

/-! ## Glob matching (`fnmatch.fnmatch`, used by `monitor_simple.py` line 83)

On POSIX `os.path.normcase` is the identity, so `fnmatch.fnmatch` is
case-sensitive glob matching: `*` matches any sequence, `?` any single
character, `[...]` a character class (leading `!` negates; a `]` right after
the opening - or after the `!` - is a literal member; an unclosed `[` is a
literal `[`). -/

/-- Scan a character-class body for its closing `]`, returning the collected
member characters and the rest of the pattern (with its length bound, for
termination of the matcher). -/
def scanClass (acc : List Char) :
    (s : List Char) → Option (List Char × {r : List Char // r.length ≤ s.length})
  | [] => none
  | ']' :: rest => some (acc.reverse, ⟨rest, by simp⟩)
  | c :: rest =>
    match scanClass (c :: acc) rest with
    | none => none
    | some (content, ⟨r, h⟩) => some (content, ⟨r, by simp; omega⟩)

/-- Parse a character class starting right after `[`: an optional leading
`!`, an optional literal `]`, then members up to the closing `]`.  `none`
when there is no closing `]` (the `[` is then a literal). -/
def parseCls :
    (s : List Char) → Option (Bool × List Char × {r : List Char // r.length ≤ s.length})
  | '!' :: ']' :: s2 =>
    (match scanClass [']'] s2 with
     | none => none
     | some (content, ⟨r, h⟩) => some (true, content, ⟨r, by simp; omega⟩))
  | '!' :: s1 =>
    (match scanClass [] s1 with
     | none => none
     | some (content, ⟨r, h⟩) => some (true, content, ⟨r, by simp; omega⟩))
  | ']' :: s2 =>
    (match scanClass [']'] s2 with
     | none => none
     | some (content, ⟨r, h⟩) => some (false, content, ⟨r, by simp; omega⟩))
  | s =>
    match scanClass [] s with
    | none => none
    | some (content, ⟨r, h⟩) => some (false, content, ⟨r, h⟩)

/-- Whether a character is a member of a class body: `x-y` spans a range,
other characters (including a leading or trailing `-`) stand for themselves. -/
def classMatches (c : Char) : List Char → Bool
  | [] => false
  | a :: '-' :: b :: rest =>
    (decide (a ≤ c) && decide (c ≤ b)) || classMatches c rest
  | a :: rest => (a == c) || classMatches c rest

/-- Glob matching of a name against a pattern, by structural recursion on a
fuel argument so that the function evaluates inside the kernel.  Every
recursive call strictly decreases `2 * p.length + s.length`, so the fuel that
`fnmatch` supplies, which exceeds that measure, never runs out. -/
def globMatch (fuel : Nat) (p s : List Char) : Bool :=
  match fuel with
  | 0 => false
  | fuel + 1 =>
    match p, s with
    | [], rest => rest.isEmpty
    | '*' :: ps, rest =>
      globMatch fuel ps rest ||
        (match rest with
         | [] => false
         | _ :: s1 => globMatch fuel ('*' :: ps) s1)
    | '?' :: ps, rest =>
      (match rest with
       | [] => false
       | _ :: s1 => globMatch fuel ps s1)
    | '[' :: ps, rest =>
      (match parseCls ps with
       | some (neg, content, ⟨pr, _⟩) =>
         (match rest with
          | [] => false
          | c :: s1 => (classMatches c content != neg) && globMatch fuel pr s1)
       | none =>
         (match rest with
          | [] => false
          | c :: s1 => (c == '[') && globMatch fuel ps s1))
    | pc :: ps, rest =>
      (match rest with
       | [] => false
       | c :: s1 => (pc == c) && globMatch fuel ps s1)

/-- Python `fnmatch.fnmatch(name, pat)` on POSIX. -/
def fnmatch (name pat : String) : Bool :=
  globMatch (2 * pat.data.length + name.data.length + 1) pat.data name.data

/-! ## Python `sorted` and `set` on JSON values -/

/-- Key order used by `sorted`: strings by code points, numbers numerically.
The scripts only sort homogeneous lists (`sortedPy` checks that). -/
def jsonKeyLT (a b : Json) : Bool :=
  match a, b with
  | .str x, .str y => decide (x < y)
  | .num x, .num y => decide (x < y)
  | _, _ => false

/-- Stable insertion of a keyed element: before the first strictly greater
key, after equal keys. -/
def insertKeyed {α : Type} (x : Json × α) : List (Json × α) → List (Json × α)
  | [] => [x]
  | y :: ys => if jsonKeyLT x.1 y.1 then x :: y :: ys else y :: insertKeyed x ys

/-- Stable sort of a keyed list. -/
def sortKeyed {α : Type} (l : List (Json × α)) : List (Json × α) :=
  l.foldl (fun acc x => insertKeyed x acc) []

/-- Python `sorted(xs, key=...)`: lists of at most one element never compare;
otherwise all keys must be mutually orderable (all strings or all numbers),
else `TypeError`. -/
def sortedPy {α : Type} (keyed : List (Json × α)) : Except String (List α) :=
  if keyed.length ≤ 1 then .ok (keyed.map Prod.snd)
  else if keyed.all (fun kv => match kv.1 with | .str _ => true | _ => false) ||
          keyed.all (fun kv => match kv.1 with | .num _ => true | _ => false) then
    .ok ((sortKeyed keyed).map Prod.snd)
  else .error "TypeError: unorderable types in sort"

/-- Python `set.add` (and the per-element effect of `set.update`): containers
are unhashable; a duplicate leaves the set unchanged.  The set is kept as its
insertion-ordered list of distinct elements, which is enough because the
scripts only ever sort a set before using it. -/
def pySetAdd (s : List Json) (x : Json) : Except String (List Json) :=
  if x.hashablePy then .ok (if s.contains x then s else s ++ [x])
  else .error "TypeError: unhashable type"

/-- Python `set.update(iterable)`: adds each element in turn. -/
def pySetUpdate (s : List Json) (xs : List Json) : Except String (List Json) :=
  match xs with
  | [] => .ok s
  | x :: rest => do
    let s1 ← pySetAdd s x
    pySetUpdate s1 rest

/-! ## The collector (`monitor_ece_w_api_key.py` lines 59-169)

HTTP is abstracted by an oracle `fetch : String → Json` assigning to each URL
the value `make_api_request` returns for it; the collector functions are
written against the oracle exactly as the source is written against
`make_api_request`. -/

/-- Lines 59-82 (`fetch_platform_and_allocators`). -/
def fetch_platform_and_allocators (fetch : String → Json) (host : String) : Json :=
  let metrics := Json.obj []
  let metrics := metrics.set "platform_info" (fetch (host ++ "/api/v1/platform"))
  metrics.set "allocators"
    (fetch (host ++ "/api/v1/platform/infrastructure/allocators"))

/-- Lines 85-102 (`fetch_deployment_list`): `.get("deployments", [])` on the
response (an `AttributeError` if the parsed body is not a dict). -/
def fetch_deployment_list (fetch : String → Json) (host : String) :
    Except String Json :=
  (fetch (host ++ "/api/v1/deployments")).getPyD "deployments" (Json.arr [])

/-- The URL built at line 125. -/
def details_url (host : String) (depId : Json) : String :=
  host ++ "/api/v1/deployments/" ++ depId.pyStr ++ "?show_metadata=true"

/-- Lines 136-143: the generator inside `next(...)` - the first resource
entry `r` with `"info" in r and "cluster_id" in r["info"]`, evaluating the
condition with Python semantics (so a malformed entry can raise). -/
def findFirstEs : List Json → Except String (Option Json)
  | [] => .ok none
  | r :: rest => do
    let hasInfo ← r.containsPy "info"
    if hasInfo then do
      let info ← r.sub "info"
      let hasCid ← info.containsPy "cluster_id"
      if hasCid then pure (some r) else findFirstEs rest
    else findFirstEs rest

/-- Lines 130-143: locate the Elasticsearch resource entry inside a details
response. -/
def findEsResource (details : Json) : Except String (Option Json) := do
  let isDict := match details with | .obj _ => true | _ => false
  if isDict then do
    let hasRes ← details.containsPy "resources"
    if hasRes then do
      let res ← details.sub "resources"
      let hasEs ← res.containsPy "elasticsearch"
      if hasEs then do
        let lst ← res.sub "elasticsearch"
        let items ← lst.iterPy
        findFirstEs items
      else pure none
    else pure none
  else pure none

/-- Lines 105-169 (`fetch_deployment_details`): one deployment's processing.
Note line 120 subscripts `deployment["id"]` and line 150 subscripts
`es_resource["info"]["metadata"]` without a guard; both can raise `KeyError`,
which nothing in `main` catches. -/
def fetch_deployment_details (fetch : String → Json) (host : String)
    (deployment : Json) : Except String Json := do
  let depId ← deployment.sub "id"
  let details := fetch (details_url host depId)
  let dep := deployment.set "details" details
  let es ← findEsResource details
  match es with
  | none => pure dep
  | some r =>
    if r.isTruthy then do
      let info ← r.sub "info"
      let cid ← info.getPy "cluster_id"
      if cid.isTruthy then do
        let cid2 ← info.sub "cluster_id"
        if cid2 ≠ Json.str "cluster_id" then do
          let md ← info.sub "metadata"
          let ep ← md.getPy "service_url"
          if ep.isTruthy then do
            let dep1 := dep.set "elasticsearch_cluster_health"
              (fetch (ep.pyStr ++ "/_cluster/health"))
            let dep2 := dep1.set "elasticsearch_cluster_stats"
              (fetch (ep.pyStr ++ "/_cluster/stats"))
            pure dep2
          else pure dep
        else pure dep
      else pure dep
    else pure dep

/-! ## The summarizer (`monitor_ece_w_api_key.py` lines 172-419)

Each `print(...)` contributes one string (embedded `\n` kept); an uncaught
exception inside the function is an `.error` (there is no handler in this
script).  Decimal float formatting is abstracted by `PyFloat.fmt`; the claims
depend only on which lines appear. -/

/-- Python `str.lower` (ASCII folding; every status string compared by the
script is ASCII). -/
def pyLower (s : String) : String := String.mk (s.data.map Char.toLower)

/-- Python `str.upper` (ASCII folding). -/
def pyUpper (s : String) : String := String.mk (s.data.map Char.toUpper)

/-- Python `x > 0` where `x` came out of JSON: numbers compare numerically,
booleans as 0/1, anything else raises `TypeError` against an int. -/
def pyGtZero (j : Json) : Except String Bool :=
  match j with
  | .num n => .ok (decide (0 < n))
  | .bool b => .ok b
  | _ => .error "TypeError: not comparable with int"

/-- Python `", ".join`-style joining. -/
def joinComma : List String → String
  | [] => ""
  | [x] => x
  | x :: rest => x ++ ", " ++ joinComma rest

/-- Python `", ".join(xs)` over set elements, which must all be strings. -/
def strJoinComma : List Json → Except String String
  | [] => .ok ""
  | [.str s] => .ok s
  | .str s :: rest => do
    let r ← strJoinComma rest
    pure (s ++ ", " ++ r)
  | _ => .error "TypeError: sequence item is not str"

/-- Lines 184-210, the body of the per-region loop. -/
def regionLinesOf (region : Json) : Except String (List String) := do
  let rid ← region.getPyD "region_id" (Json.str "Unknown")
  let runners ← region.getPyD "runners" (Json.obj [])
  let rline ←
    if runners.isTruthy then do
      let h ← runners.getPyD "healthy_runners" (Json.num 0)
      let t ← runners.getPyD "total_runners" (Json.num 0)
      pure ["      Runners: " ++ h.pyStr ++ "/" ++ t.pyStr ++ " healthy"]
    else pure ([] : List String)
  let proxies ← region.getPyD "proxies" (Json.obj [])
  let pline ←
    if proxies.isTruthy then do
      let c ← proxies.getPyD "proxies_count" (Json.num 0)
      let hl ← proxies.getPyD "healthy" (Json.bool false)
      pure ["      Proxies: " ++ c.pyStr ++ " (" ++
            (if hl.isTruthy then "Healthy" else "Unhealthy") ++ ")"]
    else pure ([] : List String)
  pure (["    - " ++ rid.pyStr] ++ rline ++ pline)

/-- The region loop of lines 194-210. -/
def regionsLines : List Json → Except String (List String)
  | [] => .ok []
  | r :: rest => do
    let a ← regionLinesOf r
    let b ← regionsLines rest
    pure (a ++ b)

/-- Lines 183-210: the platform-information section. -/
def platformLines (metrics : Json) : Except String (List String) := do
  let platform_info ← metrics.getPyD "platform_info" (Json.obj [])
  if platform_info.isTruthy then do
    let version ← platform_info.getPyD "version" (Json.str "Unknown")
    let regions ← platform_info.getPyD "regions" (Json.arr [])
    if regions.isTruthy then do
      let n ← regions.lenPy
      let items ← regions.iterPy
      let rls ← regionsLines items
      pure (["\n--- Platform Info ---", "  Version: " ++ version.pyStr,
             "  Regions: " ++ toString n] ++ rls)
    else
      pure ["\n--- Platform Info ---", "  Version: " ++ version.pyStr]
  else pure []

/-- The zone-collection loop of lines 215-217. -/
def collectZones (zs : List Json) : List Json → Except String (List Json)
  | [] => .ok zs
  | z :: rest => do
    let zid ← z.getPyD "zone_id" (Json.str "Unknown")
    let zs1 ← pySetAdd zs zid
    collectZones zs1 rest

/-- Lines 212-221: the zones section. -/
def zoneLines (metrics : Json) : Except String (List String) := do
  let resp ← metrics.getPyD "allocators" (Json.obj [])
  let zones ←
    (match resp with
     | .obj _ =>
       if resp.hasKey "zones" then do
         let zl ← resp.sub "zones"
         let items ← zl.iterPy
         collectZones [] items
       else pure ([] : List Json)
     | _ => pure ([] : List Json))
  let sortedZones ← sortedPy (zones.map (fun z => (z, z)))
  pure (["\n--- Zones (" ++ toString zones.length ++ " found) ---"] ++
        sortedZones.map (fun z => "  - " ++ z.pyStr))

/-- The zone-flattening loop of lines 226-229. -/
def flattenZones (acc : List Json) : List Json → Except String (List Json)
  | [] => .ok acc
  | z :: rest => do
    let hasAlloc ← z.containsPy "allocators"
    if hasAlloc then do
      let al ← z.sub "allocators"
      match al with
      | .arr xs => flattenZones (acc ++ xs) rest
      | _ => flattenZones acc rest
    else flattenZones acc rest

/-- Lines 224-229: `all_allocators_flat`. -/
def flattenAllocators (resp : Json) : Except String (List Json) :=
  match resp with
  | .obj _ =>
    if resp.hasKey "zones" then do
      let zl ← resp.sub "zones"
      let zones ← zl.iterPy
      flattenZones [] zones
    else pure []
  | _ => pure []

/-- The guarded capacity sums of lines 232-262: sum of
`a[k1][k2][k3]` over allocators that have the whole key chain,
evaluating the generator's conditions with Python `in` semantics. -/
def sumCapacity (k1 k2 k3 : String) (acc : Int) : List Json → Except String Int
  | [] => .ok acc
  | a :: rest => do
    let c1 ← a.containsPy k1
    if c1 then do
      let cap ← a.sub k1
      let c2 ← cap.containsPy k2
      if c2 then do
        let mem ← cap.sub k2
        let c3 ← mem.containsPy k3
        if c3 then do
          let v ← mem.sub k3
          let acc1 ← pyAddNum acc v
          sumCapacity k1 k2 k3 acc1 rest
        else sumCapacity k1 k2 k3 acc rest
      else sumCapacity k1 k2 k3 acc rest
    else sumCapacity k1 k2 k3 acc rest

/-- Line 263: `sum(len(a.get("instances", [])) for a in all_allocators_flat)`. -/
def sumInstances (acc : Nat) : List Json → Except String Nat
  | [] => .ok acc
  | a :: rest => do
    let inst ← a.getPyD "instances" (Json.arr [])
    let n ← inst.lenPy
    sumInstances (acc + n) rest

/-- Lines 275-277: allocators whose `status.healthy` is truthy. -/
def countHealthy (acc : Nat) : List Json → Except String Nat
  | [] => .ok acc
  | a :: rest => do
    let st ← a.getPyD "status" (Json.obj [])
    let h ← st.getPyD "healthy" (Json.bool false)
    countHealthy (if h.isTruthy then acc + 1 else acc) rest

/-- Lines 287-289: the union of the allocators' `features` lists. -/
def collectFeatures (acc : List Json) : List Json → Except String (List Json)
  | [] => .ok acc
  | a :: rest => do
    let f ← a.getPyD "features" (Json.arr [])
    let items ← f.iterPy
    let acc1 ← pySetUpdate acc items
    collectFeatures acc1 rest

/-- Lines 231-296: the allocator section.  `resp` is the allocators response
and `flat` the flattened allocator list.  The division guard of lines 266-270
prints the percentage only when `total_mem_gb > 0` and otherwise the literal
N/A line, never dividing. -/
def allocatorLines (resp : Json) (flat : List Json) :
    Except String (List String) := do
  if !flat.isEmpty then do
    let totalMem ← sumCapacity "capacity" "memory" "total" 0 flat
    let total_mem_gb := PyFloat.by1024 totalMem
    let usedMem ← sumCapacity "capacity" "memory" "used" 0 flat
    let used_mem_gb := PyFloat.by1024 usedMem
    let totalStorage ← sumCapacity "capacity" "storage" "total" 0 flat
    let total_storage_gb := PyFloat.by1024 totalStorage
    let instanceCount ← sumInstances 0 flat
    let usedLine ←
      if total_mem_gb.gtZero then do
        let ratio ← PyFloat.div used_mem_gb total_mem_gb
        pure ("  Used Memory Capacity:  " ++ used_mem_gb.fmt ++ " GB (" ++
              ratio.fmt ++ " used)")
      else pure "  Used Memory Capacity: N/A"
    let healthy ← countHealthy 0 flat
    let healthyLine :=
      "  Healthy Allocators: " ++ toString healthy ++ "/" ++ toString flat.length
    let feats ← collectFeatures [] flat
    let sortedFeats ← sortedPy (feats.map (fun f => (f, f)))
    let featStr ← strJoinComma sortedFeats
    pure ["\n--- Allocators (" ++ toString flat.length ++ " found) ---",
          "  Total Memory Capacity: " ++ total_mem_gb.fmt ++ " GB",
          usedLine,
          "  Total Storage: " ++ total_storage_gb.fmt ++ " GB",
          "  Total Instances: " ++ toString instanceCount,
          healthyLine,
          healthyLine,
          "  Available Features: " ++ featStr]
  else do
    let errLines ←
      (match resp with
       | .obj _ =>
         if resp.hasKey "error" then do
           let det ← resp.getPyD "details" (Json.str "No details available")
           pure ["  Error details: " ++ det.pyStr]
         else pure ([] : List String)
       | _ => pure ([] : List String))
    pure (["\n--- Allocators: Could not retrieve data or no allocators found. ---"]
          ++ errLines)

/-- Lines 313-323: the health-histogram bucket one deployment record feeds.
An absent `elasticsearch_cluster_health` key defaults to `{}`, which has no
`"error"` key and no `"status"`, so such a record lands in `unknown`. -/
def healthBucket (dep : Json) : Except String String := do
  let health_info ← dep.getPyD "elasticsearch_cluster_health" (Json.obj [])
  let isErr ← health_info.containsPy "error"
  if isErr then pure "error"
  else do
    let status ← health_info.getPyD "status" (Json.str "unknown")
    match status with
    | .str s =>
      let low := pyLower s
      if low = "green" ∨ low = "yellow" ∨ low = "red" ∨ low = "error" ∨
         low = "unknown" then pure low
      else pure "unknown"
    | _ => .error "AttributeError: value has no method lower"

/-- The histogram dict initialised at line 305. -/
structure HealthCounts where
  green : Nat
  yellow : Nat
  red : Nat
  error : Nat
  unknown : Nat
deriving DecidableEq

/-- The all-zero histogram. -/
def HealthCounts.zero : HealthCounts := ⟨0, 0, 0, 0, 0⟩

/-- Lines 316-323: add one bucket hit. -/
def HealthCounts.bump (c : HealthCounts) (b : String) : HealthCounts :=
  if b = "green" then { c with green := c.green + 1 }
  else if b = "yellow" then { c with yellow := c.yellow + 1 }
  else if b = "red" then { c with red := c.red + 1 }
  else if b = "error" then { c with error := c.error + 1 }
  else { c with unknown := c.unknown + 1 }

/-- The health-status histogram over a deployment list (lines 305-323). -/
def healthHistogram (acc : HealthCounts) : List Json → Except String HealthCounts
  | [] => .ok acc
  | dep :: rest => do
    let b ← healthBucket dep
    healthHistogram (acc.bump b) rest

/-- Insertion-ordered counter increment (a Python dict used as a counter). -/
def bumpAssoc : List (Json × Nat) → Json → List (Json × Nat)
  | [], v => [(v, 1)]
  | (k, n) :: rest, v =>
    if k = v then (k, n + 1) :: rest else (k, n) :: bumpAssoc rest v

/-- The version-histogram dict update of line 339 (`versions[version] =
versions.get(version, 0) + 1`); containers cannot be dict keys. -/
def bumpVersion (versions : List (Json × Nat)) (v : Json) :
    Except String (List (Json × Nat)) :=
  if v.hashablePy then
    .ok (bumpAssoc versions v)
  else .error "TypeError: unhashable type as dict key"

/-- Lines 333-339: the version histogram contribution of one deployment's
Elasticsearch resource list. -/
def collectVersions (acc : List (Json × Nat)) :
    List Json → Except String (List (Json × Nat))
  | [] => .ok acc
  | es :: rest => do
    let es_info ← es.getPyD "info" (Json.obj [])
    let p1 ← es_info.getPyD "plan_info" (Json.obj [])
    let p2 ← p1.getPyD "current" (Json.obj [])
    let plan_info ← p2.getPyD "plan" (Json.obj [])
    let p3 ← plan_info.getPyD "elasticsearch" (Json.obj [])
    let version ← p3.getPyD "version" (Json.str "unknown")
    let acc1 ← bumpVersion acc version
    collectVersions acc1 rest

/-- Lines 344-351: the inner topology-instance loop. -/
def sumTopology (acc : Nat × Int × Int) : List Json → Except String (Nat × Int × Int)
  | [] => .ok acc
  | inst :: rest => do
    let m1 ← inst.getPyD "memory" (Json.obj [])
    let m ← m1.getPyD "instance_capacity" (Json.num 0)
    let mem1 ← pyAddNum acc.2.1 m
    let storage ← inst.getPyD "disk" (Json.obj [])
    let stor1 ←
      if storage.isTruthy then do
        let s ← storage.getPyD "disk_space_available" (Json.num 0)
        pyAddNum acc.2.2 s
      else pure acc.2.2
    sumTopology (acc.1 + 1, mem1, stor1) rest

/-- Lines 342-351: the per-resource topology loop. -/
def sumTopologyEs (acc : Nat × Int × Int) :
    List Json → Except String (Nat × Int × Int)
  | [] => .ok acc
  | es :: rest => do
    let es_info ← es.getPyD "info" (Json.obj [])
    let t1 ← es_info.getPyD "topology" (Json.obj [])
    let insts ← t1.getPyD "instances" (Json.arr [])
    let items ← insts.iterPy
    let acc1 ← sumTopology acc items
    sumTopologyEs acc1 rest

/-- The mutable state of the deployment-statistics loop (lines 305-311). -/
structure DepStats where
  counts : HealthCounts
  versions : List (Json × Nat)
  memory_total : Int
  storage_total : Int
  total_nodes : Nat
  elasticsearch_count : Nat
  kibana_count : Nat
deriving DecidableEq

/-- The initial statistics state. -/
def DepStats.zero : DepStats := ⟨HealthCounts.zero, [], 0, 0, 0, 0, 0⟩

/-- Lines 313-351: one iteration of the statistics loop. -/
def depStatsStep (st : DepStats) (dep : Json) : Except String DepStats := do
  let b ← healthBucket dep
  let counts := st.counts.bump b
  let d1 ← dep.getPyD "details" (Json.obj [])
  let resources ← d1.getPyD "resources" (Json.obj [])
  let (esCount, kbCount) ←
    if resources.isTruthy then do
      let esl ← resources.getPyD "elasticsearch" (Json.arr [])
      let esn ← esl.lenPy
      let kbl ← resources.getPyD "kibana" (Json.arr [])
      let kbn ← kbl.lenPy
      pure (st.elasticsearch_count + esn, st.kibana_count + kbn)
    else pure (st.elasticsearch_count, st.kibana_count)
  let details ← dep.getPyD "details" (Json.obj [])
  let r2 ← details.getPyD "resources" (Json.obj [])
  let esList ← r2.getPyD "elasticsearch" (Json.arr [])
  let esItems ← esList.iterPy
  let versions ← collectVersions st.versions esItems
  let (nodes, mem, stor) ←
    sumTopologyEs (st.total_nodes, st.memory_total, st.storage_total) esItems
  pure ⟨counts, versions, mem, stor, nodes, esCount, kbCount⟩

/-- The whole statistics loop of lines 313-351. -/
def depStatsFold (st : DepStats) : List Json → Except String DepStats
  | [] => .ok st
  | dep :: rest => do
    let st1 ← depStatsStep st dep
    depStatsFold st1 rest

/-- Lines 354-359: the status-distribution fragments, in the histogram's
insertion order, skipping zero buckets. -/
def statusDistribution (c : HealthCounts) : List String :=
  (if c.green > 0 then ["GREEN: " ++ toString c.green] else []) ++
  (if c.yellow > 0 then ["YELLOW: " ++ toString c.yellow] else []) ++
  (if c.red > 0 then ["RED: " ++ toString c.red] else []) ++
  (if c.error > 0 then ["ERROR: " ++ toString c.error] else []) ++
  (if c.unknown > 0 then ["UNKNOWN: " ++ toString c.unknown] else [])

/-- Lines 363-365: the version fragments. -/
def versionStrs : List (Json × Nat) → List String
  | [] => []
  | (v, c) :: rest => (v.pyStr ++ " (" ++ toString c ++ ")") :: versionStrs rest

/-- Line 379: the sort key `x.get("name", x["id"])`.  Python evaluates the
default argument first, so a record without `"id"` raises `KeyError` even
when it has a name. -/
def depKey (x : Json) : Except String Json := do
  let idv ← x.sub "id"
  x.getPyD "name" idv

/-- Key extraction over the whole list, as `sorted(..., key=...)` performs it. -/
def depKeys : List Json → Except String (List (Json × Json))
  | [] => .ok []
  | d :: rest => do
    let k ← depKey d
    let r ← depKeys rest
    pure ((k, d) :: r)

/-- Lines 406-412: the listing's memory sum over topology instances (reads
only `memory.instance_capacity`, unlike the statistics loop). -/
def sumListingMemory (acc : Int) : List Json → Except String Int
  | [] => .ok acc
  | inst :: rest => do
    let m1 ← inst.getPyD "memory" (Json.obj [])
    let m ← m1.getPyD "instance_capacity" (Json.num 0)
    let acc1 ← pyAddNum acc m
    sumListingMemory acc1 rest

/-- Lines 406-412: the listing's per-resource loop. -/
def sumListingMemoryEs (acc : Int) : List Json → Except String Int
  | [] => .ok acc
  | es :: rest => do
    let es_info ← es.getPyD "info" (Json.obj [])
    let t1 ← es_info.getPyD "topology" (Json.obj [])
    let insts ← t1.getPyD "instances" (Json.arr [])
    let items ← insts.iterPy
    let acc1 ← sumListingMemory acc items
    sumListingMemoryEs acc1 rest

/-- Lines 380-417: one line of the per-deployment listing. -/
def depListingLine (dep : Json) : Except String String := do
  let health_info ← dep.getPyD "elasticsearch_cluster_health" (Json.obj [])
  let isErr ← health_info.containsPy "error"
  let status_text ←
    if isErr then do
      let det ← health_info.getPyD "details" (Json.str "unknown error")
      pure ("Could not fetch health (Error: " ++ det.pyStr ++ ")")
    else do
      let status ← health_info.getPyD "status" (Json.str "unknown")
      let st ← (match status with
                | .str s => pure (pyUpper s)
                | _ => Except.error "AttributeError: value has no method upper")
      let relocating ← health_info.getPyD "relocating_shards" (Json.num 0)
      let rGt ← pyGtZero relocating
      let t1 := "Status: " ++ st
      let t2 := if rGt then t1 ++ " | Relocating Shards: " ++ relocating.pyStr else t1
      let node_count ← health_info.getPyD "number_of_nodes" (Json.num 0)
      let nGt ← pyGtZero node_count
      let t3 := if nGt then t2 ++ " | Nodes: " ++ node_count.pyStr else t2
      let index_count ← health_info.getPyD "indices" (Json.num 0)
      let iGt ← pyGtZero index_count
      pure (if iGt then t3 ++ " | Indices: " ++ index_count.pyStr else t3)
  let details ← dep.getPyD "details" (Json.obj [])
  let r1 ← details.getPyD "resources" (Json.obj [])
  let esList ← r1.getPyD "elasticsearch" (Json.arr [])
  let esItems ← esList.iterPy
  let totalMemory ← sumListingMemoryEs 0 esItems
  let memory_info :=
    if decide (0 < totalMemory) then
      " | Memory: " ++ (PyFloat.by1024 totalMemory).fmt ++ " GB"
    else ""
  let idv ← dep.sub "id"
  let nm ← dep.getPyD "name" idv
  pure ("  - " ++ nm.pyStr ++ ": " ++ status_text ++ memory_info)

/-- The listing loop of lines 379-417. -/
def depListingLines : List Json → Except String (List String)
  | [] => .ok []
  | d :: rest => do
    let l ← depListingLine d
    let r ← depListingLines rest
    pure (l :: r)

/-- Lines 298-419: the deployment section. -/
def deploymentLines (metrics : Json) : Except String (List String) := do
  let deployments ← metrics.getPyD "deployments_details" (Json.arr [])
  let n ← deployments.lenPy
  let hdr := "\n--- Inspected Deployments (" ++ toString n ++ " found) ---"
  if !deployments.isTruthy then
    pure [hdr, "  No deployments found or collected."]
  else do
    let deps ← deployments.iterPy
    let st ← depStatsFold DepStats.zero deps
    let statusLine := "  Status Distribution: " ++ joinComma (statusDistribution st.counts)
    let vs := versionStrs st.versions
    let versionLine := "  Elasticsearch Versions: " ++
      (if vs.isEmpty then "None found" else joinComma vs)
    let resLine := "  Resource Counts: " ++ toString st.elasticsearch_count ++
      " Elasticsearch, " ++ toString st.kibana_count ++ " Kibana"
    let memLine := "  Total Memory Allocated: " ++
      (PyFloat.by1024 st.memory_total).fmt ++ " GB"
    let storLine := "  Total Storage Allocated: " ++
      (PyFloat.by1024 st.storage_total).fmt ++ " GB"
    let nodesLine := "  Total Nodes: " ++ toString st.total_nodes
    let keyed ← depKeys deps
    let sortedDeps ← sortedPy keyed
    let listing ← depListingLines sortedDeps
    pure ([hdr, statusLine, versionLine, resLine, memLine, storLine, nodesLine,
           "\n--- Deployment Details ---"] ++ listing)

/-- Lines 172-419 (`print_summary`): the whole summary, or the uncaught
exception it raises (this script has no handler around it). -/
def print_summary_w (metrics : Json) : Except String (List String) := do
  let head := ["\n" ++ String.mk (List.replicate 50 '='),
               "                 METRICS SUMMARY",
               String.mk (List.replicate 50 '=')]
  let pl ← platformLines metrics
  let zl ← zoneLines metrics
  let resp ← metrics.getPyD "allocators" (Json.obj [])
  let flat ← flattenAllocators resp
  let al ← allocatorLines resp flat
  let dl ← deploymentLines metrics
  pure (head ++ pl ++ zl ++ al ++ dl ++
        ["\n" ++ String.mk (List.replicate 80 '=') ++ "\n"])

/-! ## The persister (`save_metrics_to_file`, lines 422-441; `json.dump` with
`ensure_ascii=False, indent=4`) and its inverse `json.loads`

The serializer is the exact layout `json.dump` produces for values of the
`Json` type: 4-space indentation, `", "`-free separators (`",\n"` between
items, `": "` after keys), short escapes for the two quoting characters and
the five named control characters, `\u00XX` for the remaining control
characters, all other characters (including non-ASCII) written raw.  The
parser is `json.loads` restricted to what the scripts can write (integer
numerals); it builds objects by dictionary assignment, so a repeated key
keeps its first position with its last value, as a Python dict does. -/

/-- The opening brace character (written by its code point). -/
def lbrace : Char := Char.ofNat 123

/-- The closing brace character (written by its code point). -/
def rbrace : Char := Char.ofNat 125

/-- A lowercase hexadecimal digit. -/
def hexDigitChar (n : Nat) : Char :=
  if n < 10 then Char.ofNat (48 + n) else Char.ofNat (87 + n)

/-- The escape `json.dump` applies to one character with
`ensure_ascii=False`: `\\` and `\"` for the quoting pair, the five short
escapes, `\u00XX` for the other control characters, everything else raw. -/
def escChar (c : Char) : List Char :=
  if c = '\\' then ['\\', '\\']
  else if c = '"' then ['\\', '"']
  else if c = Char.ofNat 10 then ['\\', 'n']
  else if c = Char.ofNat 13 then ['\\', 'r']
  else if c = Char.ofNat 9 then ['\\', 't']
  else if c = Char.ofNat 8 then ['\\', 'b']
  else if c = Char.ofNat 12 then ['\\', 'f']
  else if c.toNat < 32 then
    ['\\', 'u', '0', '0', hexDigitChar (c.toNat / 16), hexDigitChar (c.toNat % 16)]
  else [c]

/-- Escaping of a whole string body. -/
def escChars : List Char → List Char
  | [] => []
  | c :: rest => escChar c ++ escChars rest

/-- A rendered JSON string literal. -/
def renderStr (s : String) : List Char := '"' :: (escChars s.data ++ ['"'])

/-- The indentation for nesting level `lvl` (indent=4). -/
def pad (lvl : Nat) : List Char := List.replicate (4 * lvl) ' '

mutual

/-- The characters `json.dump(..., ensure_ascii=False, indent=4)` writes for
a value at nesting level `lvl`. -/
def renderJson (lvl : Nat) : Json → List Char
  | .null => "null".data
  | .bool true => "true".data
  | .bool false => "false".data
  | .num n => (toString n).data
  | .str s => renderStr s
  | .arr [] => ['[', ']']
  | .arr (x :: xs) =>
    '[' :: '\n' :: (renderItems (lvl + 1) (x :: xs) ++ '\n' :: (pad lvl ++ [']']))
  | .obj [] => [lbrace, rbrace]
  | .obj (kv :: kvs) =>
    lbrace :: '\n' :: (renderFields (lvl + 1) (kv :: kvs) ++ '\n' :: (pad lvl ++ [rbrace]))

/-- The comma-and-newline separated item list of a non-empty array (the
empty case never arises; it renders to nothing). -/
def renderItems (lvl : Nat) : List Json → List Char
  | [] => []
  | [x] => pad lvl ++ renderJson lvl x
  | x :: y :: ys =>
    pad lvl ++ renderJson lvl x ++ ',' :: '\n' :: renderItems lvl (y :: ys)

/-- The field list of a non-empty object (the empty case never arises). -/
def renderFields (lvl : Nat) : List (String × Json) → List Char
  | [] => []
  | [(k, v)] => pad lvl ++ renderStr k ++ ':' :: ' ' :: renderJson lvl v
  | (k, v) :: l :: ls =>
    pad lvl ++ renderStr k ++ ':' :: ' ' :: renderJson lvl v ++
      ',' :: '\n' :: renderFields lvl (l :: ls)

end

/-- The file content `json.dump` writes for the report. -/
def json_dumps (data : Json) : String := String.mk (renderJson 0 data)

/-- Lines 422-441 (`save_metrics_to_file`): the content that reaches the
file, `none` when the write raises `IOError` (which the function catches and
only reports). -/
def save_metrics_to_file (data : Json) (writeOk : Bool) : Option String :=
  if writeOk then some (json_dumps data) else none

/-- JSON whitespace (`json.loads` skips space, tab, newline, return; the
test is phrased on code points to ease arithmetic reasoning). -/
def isWsChar (c : Char) : Bool :=
  c.toNat = 32 || c.toNat = 9 || c.toNat = 10 || c.toNat = 13

/-- Skip leading whitespace. -/
def skipWs : List Char → List Char
  | [] => []
  | c :: r => if isWsChar c then skipWs r else c :: r

/-- An ASCII decimal digit. -/
def isDigitChar (c : Char) : Bool :=
  decide (48 ≤ c.toNat) && decide (c.toNat ≤ 57)

/-- Scan a maximal run of digits, accumulating their value. -/
def scanDigits (acc : Nat) : List Char → Nat × List Char
  | [] => (acc, [])
  | c :: r =>
    if isDigitChar c then scanDigits (acc * 10 + (c.toNat - 48)) r
    else (acc, c :: r)

/-- Parse an integer numeral (the only number shape the scripts write). -/
def parseNum : List Char → Option (Json × List Char)
  | [] => none
  | c :: r =>
    if c = '-' then
      match r with
      | [] => none
      | d :: _ =>
        if isDigitChar d then
          let (n, rest) := scanDigits 0 r
          some (.num (-(n : Int)), rest)
        else none
    else if isDigitChar c then
      let (n, rest) := scanDigits 0 (c :: r)
      some (.num (n : Int), rest)
    else none

/-- The value of a hexadecimal digit. -/
def hexVal (c : Char) : Option Nat :=
  if 48 ≤ c.toNat ∧ c.toNat ≤ 57 then some (c.toNat - 48)
  else if 97 ≤ c.toNat ∧ c.toNat ≤ 102 then some (c.toNat - 87)
  else if 65 ≤ c.toNat ∧ c.toNat ≤ 70 then some (c.toNat - 55)
  else none

/-- Scan a string body (the opening quote already consumed), decoding the
escapes `json.loads` accepts. -/
def scanStr (acc : List Char) : List Char → Option (String × List Char)
  | [] => none
  | c :: r =>
    if c = '"' then some (String.mk acc.reverse, r)
    else if c = '\\' then
      match r with
      | [] => none
      | e :: r2 =>
        if e = '"' then scanStr ('"' :: acc) r2
        else if e = '\\' then scanStr ('\\' :: acc) r2
        else if e = '/' then scanStr ('/' :: acc) r2
        else if e = 'n' then scanStr (Char.ofNat 10 :: acc) r2
        else if e = 't' then scanStr (Char.ofNat 9 :: acc) r2
        else if e = 'r' then scanStr (Char.ofNat 13 :: acc) r2
        else if e = 'b' then scanStr (Char.ofNat 8 :: acc) r2
        else if e = 'f' then scanStr (Char.ofNat 12 :: acc) r2
        else if e = 'u' then
          match r2 with
          | h1 :: h2 :: h3 :: h4 :: r3 =>
            (match hexVal h1, hexVal h2, hexVal h3, hexVal h4 with
             | some a, some b, some cc, some d =>
               scanStr (Char.ofNat (a * 4096 + b * 256 + cc * 16 + d) :: acc) r3
             | _, _, _, _ => none)
          | _ => none
        else none
    else scanStr (c :: acc) r

/-- Match an expected literal character sequence. -/
def expectChars : List Char → List Char → Option (List Char)
  | [], s => some s
  | _ :: _, [] => none
  | c :: cs, d :: s => if c = d then expectChars cs s else none

mutual

/-- Parse one JSON value (after skipping whitespace).  The fuel only bounds
the recursion depth; `json_loads` supplies more than any input can use. -/
def parseVal (fuel : Nat) (s : List Char) : Option (Json × List Char) :=
  match fuel with
  | 0 => none
  | fuel + 1 =>
    match skipWs s with
    | [] => none
    | c :: r =>
      if c = 'n' then (expectChars ['u', 'l', 'l'] r).map (fun r2 => (.null, r2))
      else if c = 't' then
        (expectChars ['r', 'u', 'e'] r).map (fun r2 => (.bool true, r2))
      else if c = 'f' then
        (expectChars ['a', 'l', 's', 'e'] r).map (fun r2 => (.bool false, r2))
      else if c = '"' then (scanStr [] r).map (fun p => (.str p.1, p.2))
      else if c = '[' then
        (match skipWs r with
         | [] => none
         | c2 :: r2 =>
           if c2 = ']' then some (.arr [], r2)
           else (parseItems fuel (c2 :: r2)).map (fun p => (.arr p.1, p.2)))
      else if c = lbrace then
        (match skipWs r with
         | [] => none
         | c2 :: r2 =>
           if c2 = rbrace then some (.obj [], r2)
           else (parseFields fuel [] (c2 :: r2)).map (fun p => (.obj p.1, p.2)))
      else parseNum (c :: r)

/-- Parse the items of a non-empty array, the opening bracket consumed. -/
def parseItems (fuel : Nat) (s : List Char) : Option (List Json × List Char) :=
  match fuel with
  | 0 => none
  | fuel + 1 =>
    match parseVal fuel s with
    | none => none
    | some (v, r) =>
      match skipWs r with
      | [] => none
      | c :: r2 =>
        if c = ',' then (parseItems fuel r2).map (fun p => (v :: p.1, p.2))
        else if c = ']' then some ([v], r2)
        else none

/-- Parse the fields of a non-empty object, the opening brace consumed,
assigning each pair into the accumulated dict as `json.loads` does. -/
def parseFields (fuel : Nat) (acc : List (String × Json)) (s : List Char) :
    Option (List (String × Json) × List Char) :=
  match fuel with
  | 0 => none
  | fuel + 1 =>
    match skipWs s with
    | [] => none
    | c :: r =>
      if c = '"' then
        match scanStr [] r with
        | none => none
        | some (k, r2) =>
          match skipWs r2 with
          | [] => none
          | c2 :: r3 =>
            if c2 = ':' then
              match parseVal fuel r3 with
              | none => none
              | some (v, r4) =>
                let acc1 := Json.insertKV acc k v
                (match skipWs r4 with
                 | [] => none
                 | c3 :: r5 =>
                   if c3 = ',' then parseFields fuel acc1 r5
                   else if c3 = rbrace then some (acc1, r5)
                   else none)
            else none
      else none

end

/-- Python `json.loads` on the document shapes the scripts write: one value,
surrounded by optional whitespace.  The fuel `s.length + 1` dominates the
recursion depth (`jcost_le_length` below makes that precise for rendered
documents). -/
def json_loads (s : String) : Option Json :=
  match parseVal (s.data.length + 1) s.data with
  | some (v, r) => if (skipWs r).isEmpty then some v else none
  | none => none

/-! Fuel accounting and statement helpers for the round-trip proof. -/

mutual

/-- The recursion depth `parseVal` needs for a rendered value. -/
def jcost : Json → Nat
  | .null | .bool _ | .num _ | .str _ => 0
  | .arr [] => 0
  | .arr (x :: xs) => jcostItems (x :: xs) + 1
  | .obj [] => 0
  | .obj (kv :: kvs) => jcostFields (kv :: kvs) + 1

/-- The recursion depth `parseItems` needs for rendered items. -/
def jcostItems : List Json → Nat
  | [] => 0
  | [x] => jcost x + 1
  | x :: y :: ys => jcost x + 1 + jcostItems (y :: ys)

/-- The recursion depth `parseFields` needs for rendered fields. -/
def jcostFields : List (String × Json) → Nat
  | [] => 0
  | [(_, v)] => jcost v + 1
  | (_, v) :: l :: ls => jcost v + 1 + jcostFields (l :: ls)

end

/-- What follows a rendered array item: a separator and the next item, or
the closing bracket line. -/
def itemsTail (lvl lvl2 : Nat) (xs : List Json) (rest : List Char) : List Char :=
  match xs with
  | [] => '\n' :: (pad lvl2 ++ ']' :: rest)
  | y :: ys => ',' :: '\n' :: (pad lvl ++ renderJson lvl y ++ itemsTail lvl lvl2 ys rest)

/-- What follows a rendered object field: a separator and the next field, or
the closing brace line. -/
def fieldsTail (lvl lvl2 : Nat) (kvs : List (String × Json)) (rest : List Char) :
    List Char :=
  match kvs with
  | [] => '\n' :: (pad lvl2 ++ rbrace :: rest)
  | kv :: rest2 =>
    ',' :: '\n' :: (pad lvl ++ renderStr kv.1 ++ ':' :: ' ' :: renderJson lvl kv.2 ++
      fieldsTail lvl lvl2 rest2 rest)

/-- Whether every character is JSON whitespace. -/
def allWs (l : List Char) : Bool := l.all isWsChar

/-- Dictionary assignment of a field list into an accumulator, in order -
what `parseFields` computes. -/
def foldInsert (acc : List (String × Json)) : List (String × Json) → List (String × Json)
  | [] => acc
  | (k, v) :: rest => foldInsert (Json.insertKV acc k v) rest

/-! ## `main` of `monitor_ece_w_api_key.py` (lines 444-482) -/

/-- The outcome of a whole run: a process exit (with the file content
written, if any), or an uncaught exception (the interpreter then exits with
a traceback and status 1). -/
inductive RunResult where
  | exited (code : Nat) (written : Option String)
  | crashed (msg : String)
deriving DecidableEq

/-- Truthiness of an `os.getenv` result, as `all([HOST, API_KEY])` tests it. -/
def optTruthy : Option String → Bool
  | none => false
  | some s => s != ""

/-- The loop of lines 470-474: per-deployment details, in list order. -/
def collectDeployments (fetch : String → Json) (host : String) :
    List Json → Except String (List Json)
  | [] => .ok []
  | d :: rest => do
    let dd ← fetch_deployment_details fetch host d
    let r ← collectDeployments fetch host rest
    pure (dd :: r)

/-- Lines 444-482 (`main`): credential validation (`sys.exit(1)` when `HOST`
or `API_KEY` is unset or empty), the fetch sequence, the summary, and the
file write.  An uncaught exception anywhere is a `crashed` result. -/
def main_w (hostEnv apiKeyEnv : Option String) (fetch : String → Json)
    (writeOk : Bool) : RunResult :=
  if !(optTruthy hostEnv && optTruthy apiKeyEnv) then .exited 1 none
  else
    let host := hostEnv.getD ""
    let pa := fetch_platform_and_allocators fetch host
    let all_metrics := (Json.obj []).update pa
    match fetch_deployment_list fetch host with
    | .error e => .crashed e
    | .ok all_deployments =>
      let all_metrics := all_metrics.set "deployments_details" (Json.arr [])
      let step : Except String Json :=
        if all_deployments.isTruthy then do
          let deps ← all_deployments.iterPy
          let detailed ← collectDeployments fetch host deps
          pure (all_metrics.set "deployments_details" (Json.arr detailed))
        else pure all_metrics
      match step with
      | .error e => .crashed e
      | .ok report =>
        match print_summary_w report with
        | .error e => .crashed e
        | .ok _ => .exited 0 (save_metrics_to_file report writeOk)

/-! ## `monitor_simple.py`

Module constants (lines 8-10), the summarizer with its blanket
`try/except` (lines 23-53), the deployments-details decision (lines 78-86),
and `main` (lines 56-124).  The module references the names `insecure`,
`filter_name` and `output_file`, none of which is defined anywhere in the
file (the `argparse` import is never used), so these references raise
`NameError` when reached. -/

namespace MonitorSimple

/-- Line 9. -/
def host : String := "https://my-ece-instance.co:12443"

/-- Line 10. -/
def api_key : String := "ECE_API_KEY"

/-- Lines 29-30: the unguarded capacity sums
(`a["capacity"]["memory"][k3]`, every subscript able to raise). -/
def sumCapSimple (k3 : String) (acc : Int) : List Json → Except String Int
  | [] => .ok acc
  | a :: rest => do
    let c ← a.sub "capacity"
    let m ← c.sub "memory"
    let v ← m.sub k3
    let acc1 ← pyAddNum acc v
    sumCapSimple k3 acc1 rest

/-- Line 40: the sort keys `x["name"]` (a `KeyError` when absent). -/
def depKeysSimple : List Json → Except String (List (Json × Json))
  | [] => .ok []
  | d :: rest => do
    let k ← d.sub "name"
    let r ← depKeysSimple rest
    pure ((k, d) :: r)

/-- Lines 40-49: the deployment loop.  `status_icon` is only assigned in the
error branch (line 43); a run whose first record is healthy reads it
unassigned at line 49, an `UnboundLocalError`-style `NameError`; once
assigned it persists across iterations. -/
def depLoop (lines : List String) (icon : Option String) :
    List Json → List String × Option String
  | [] => (lines, none)
  | dep :: rest =>
    match (do
        let health_info ← dep.getPyD "elasticsearch_cluster_health" (Json.obj [])
        let isErr ← health_info.containsPy "error"
        if isErr then do
          let det ← health_info.getPyD "details" (Json.str "unknown error")
          pure (some "❓", "Could not fetch health (" ++ det.pyStr ++ ")")
        else do
          let status ← health_info.getPyD "status" (Json.str "unknown")
          let st ← (match status with
                    | .str s => pure (pyUpper s)
                    | _ => Except.error "AttributeError: value has no method upper")
          let relocating ← health_info.getPyD "relocating_shards" (Json.num 0)
          pure (icon, "Status: " ++ st ++ " | Relocating Shards: " ++
                relocating.pyStr) : Except String (Option String × String)) with
    | .error e => (lines, some e)
    | .ok (icon1, status_text) =>
      match (do
          let nm ← dep.sub "name"
          match icon1 with
          | none => Except.error "NameError: name status_icon is not defined"
          | some ic =>
            pure (" - " ++ nm.pyStr ++ ": " ++ ic ++ " " ++ status_text)
          : Except String String) with
      | .error e => (lines, some e)
      | .ok l => depLoop (lines ++ [l]) icon1 rest

/-- Lines 37-49: the deployment part of the summary body, entered with the
lines the allocator part already printed. -/
def depPart (metrics : Json) (lines : List String) :
    List String × Option String :=
  match metrics.getPyD "deployments_details" (Json.arr []) with
  | .error e => (lines, some e)
  | .ok deployments =>
    match deployments.lenPy with
    | .error e => (lines, some e)
    | .ok n =>
      let hdr := "\nInspected Deployments: " ++ toString n ++
        " found matching filter"
      match (do
          let items ← deployments.iterPy
          let keyed ← depKeysSimple items
          sortedPy keyed : Except String (List Json)) with
      | .error e => (lines ++ [hdr], some e)
      | .ok sortedDeps => depLoop (lines ++ [hdr]) none sortedDeps

/-- Lines 25-49: the try-block body - the lines it prints before returning
or raising, and the exception if one is raised. -/
def summaryBody (metrics : Json) : List String × Option String :=
  match (do
      let a1 ← metrics.getPyD "allocators" (Json.obj [])
      a1.getPyD "allocators" (Json.arr []) : Except String Json) with
  | .error e => ([], some e)
  | .ok allocators =>
    match (if allocators.isTruthy then do
             let hasErr ← allocators.containsPy "error"
             pure (!hasErr)
           else pure false : Except String Bool) with
    | .error e => ([], some e)
    | .ok cond =>
      if cond then
        match (do
            let items ← allocators.iterPy
            let t ← sumCapSimple "total" 0 items
            let items2 ← allocators.iterPy
            let u ← sumCapSimple "used" 0 items2
            let n ← allocators.lenPy
            pure (t, u, n) : Except String (Int × Int × Nat)) with
        | .error e => ([], some e)
        | .ok (t, u, n) =>
          let total_mem_gb := PyFloat.by1024 t
          let used_mem_gb := PyFloat.by1024 u
          let l1 := "Allocators: " ++ toString n ++ " found"
          let l2 := "Total Memory Capacity: " ++ total_mem_gb.fmt ++ " GB"
          match PyFloat.div used_mem_gb total_mem_gb with
          | .error e => ([l1, l2], some e)
          | .ok ratio =>
            let l3 := "Used Memory Capacity:  " ++ used_mem_gb.fmt ++
              " GB (" ++ ratio.fmt ++ ")"
            depPart metrics [l1, l2, l3]
      else
        depPart metrics ["Allocators: Could not retrieve data."]

/-- Lines 23-53 (`print_summary`): the blanket `except Exception` turns any
exception from the body into a diagnostic line after the output already
printed; the closing ruler always prints. -/
def print_summary (metrics : Json) : List String :=
  let p := summaryBody metrics
  (match p.2 with
   | some e => p.1 ++ ["\nCould not generate summary : " ++ e]
   | none => p.1) ++ ["-------------------------"]

/-- Lines 82-84: the name-glob filter
(`fnmatch.fnmatch(d.get("name", ""), filter_name)` over the deployment
list). -/
def filter_deployments (filter_name : String) :
    List Json → Except String (List Json)
  | [] => .ok []
  | d :: rest => do
    let nm ← d.getPyD "name" (Json.str "")
    let keep ← (match nm with
                | .str s => pure (fnmatch s filter_name)
                | _ => Except.error "TypeError: fnmatch argument must be str"
                : Except String Bool)
    let r ← filter_deployments filter_name rest
    pure (if keep then d :: r else r)

/-- Lines 78-79: a deployment-list response that is an error record makes
`deployments_details` the empty list before any further processing; the
success branch (lines 81-86) would reach the undefined name `filter_name`. -/
def deployments_details_of (resp : Json) : Except String Json := do
  let hasErr ← resp.containsPy "error"
  if hasErr then pure (Json.arr [])
  else .error "NameError: name filter_name is not defined"

/-- Lines 56-66 (`main`): after the credential check (`sys.exit(1)` on an
empty key), line 61 evaluates `not insecure` - and `insecure` is not defined
anywhere in the module, so the run raises `NameError` before issuing any
request; the interpreter exits with a traceback (a non-zero status). -/
def main (key : String) : RunResult :=
  if key = "" then .exited 1 none
  else .crashed "NameError: name insecure is not defined"

end MonitorSimple


/-! ## Statement-side definitions

The definitions below appear only in theorem statements: the specification's
own description of the health histogram (for the refinement claim C4), the
specification's description of glob filtering (C7), and small valuation
helpers for the round-trip proof. -/

/-- The bucket the specification assigns to a deployment record (C4's words):
a record whose health fetch produced an error record goes to `error`;
otherwise the status string, case-insensitively, when it is one of the five
buckets; anything else, including an absent key, goes to `unknown`. -/
def spec_health_bucket (dep : Json) : String :=
  match dep with
  | .obj kvs =>
    (match Json.lookup kvs "elasticsearch_cluster_health" with
     | some h =>
       if h.hasKey "error" then "error"
       else
         (match h with
          | .obj hk =>
            (match Json.lookup hk "status" with
             | some (.str s) =>
               let l := pyLower s
               if l = "green" ∨ l = "yellow" ∨ l = "red" ∨ l = "error" ∨
                  l = "unknown" then l
               else "unknown"
             | _ => "unknown")
          | _ => "unknown")
     | none => "unknown")
  | _ => "unknown"

/-- The specification's histogram: fold the buckets over the list. -/
def spec_health_counts (deps : List Json) : HealthCounts :=
  deps.foldl (fun acc d => acc.bump (spec_health_bucket d)) HealthCounts.zero

/-- A deployment record of the shape the program itself builds: a dict whose
`elasticsearch_cluster_health`, when present, is a dict whose `status`, when
present, is a string.  The code-side histogram and the specification's agree
on these. -/
def goodHealthRecord (dep : Json) : Bool :=
  match dep with
  | .obj kvs =>
    (match Json.lookup kvs "elasticsearch_cluster_health" with
     | none => true
     | some (.obj hk) =>
       (match Json.lookup hk "status" with
        | none => true
        | some (.str _) => true
        | some _ => false)
     | some _ => false)
  | _ => false

/-- The deployments the specification says the filtering variant keeps:
exactly those whose `name` (defaulting to the empty string) matches the
glob. -/
def spec_glob_kept (filter_name : String) (deps : List Json) : List Json :=
  deps.filter (fun d =>
    match d with
    | .obj kvs =>
      (match Json.lookup kvs "name" with
       | some (.str s) => fnmatch s filter_name
       | some _ => false
       | none => fnmatch "" filter_name)
    | _ => false)

/-- The numeric value of a digit run, accumulated as `scanDigits` does. -/
def digitsVal (acc : Nat) : List Char → Nat
  | [] => acc
  | c :: r => digitsVal (acc * 10 + (c.toNat - 48)) r

/-- Whether every character is an ASCII digit. -/
def allDigits (l : List Char) : Bool := l.all isDigitChar

/-- A concrete aggregate report of the shape the collector builds, used to
exercise the persistence round-trip at a specific input (nested dicts and
lists, negative numbers, booleans, null, and a non-ASCII character that
`ensure_ascii=False` writes verbatim). -/
def sampleReport : Json :=
  .obj
    [("platform_info", .obj [("version", .str "8.12.0")]),
     ("allocators", .obj
        [("zones", .arr
            [.obj [("zone_id", .str "zone-1"),
                   ("allocators", .arr
                      [.obj [("capacity", .obj
                                [("memory", .obj
                                    [("total", .num 32768),
                                     ("used", .num 953)])]),
                             ("healthy", .bool true)]])]])]),
     ("deployments_details", .arr
        [.obj [("id", .str "d1"),
               ("name", .str "caf\u00e9"),
               ("elasticsearch_cluster_health",
                 .obj [("status", .str "green"),
                       ("relocating_shards", .num 0)])],
         .obj [("id", .str "d2"),
               ("name", .str "empty"),
               ("details", .null),
               ("offset", .num (-3))]])]

/-! # Claims

Each claim of the specification gets one theorem below (with a witness when
the theorem carries hypotheses, and a counterexample where the claim as
stated fails on the code). -/

/-! ## C1 - the fetcher's error taxonomy

The claim says an error record is returned whenever the HTTP status is at
least 400.  `response.raise_for_status()` only raises for statuses in
`[400, 600)`; a response with status 600 or above is passed to
`response.json()` and its parsed body is returned as if it were a success. -/

/-- C1, counterexample: at HTTP status 600 the fetcher returns the parsed
body, not the `HTTPError` record the claim requires for every status at or
above 400. -/
theorem C1_status600_counterexample :
    make_api_request (.response 600 "boom" (some (.str "body"))) = .str "body" ∧
    make_api_request (.response 600 "boom" (some (.str "body"))) ≠
      mkHTTPErrorRecord 600 "boom" :=
  ⟨rfl, by decide⟩

/-- C1 (amended): `make_api_request` is total - for every outcome it returns
the transport-failure record on a `RequestException`, the `HTTPError` record
exactly when the status lies in `[400, 600)` (not for every status at or
above 400 as claimed), the parsed JSON body for any other status, and a
`RequestException`-shaped record when such a body is not JSON (the
`JSONDecodeError` raised by `response.json()` is a `RequestException` and is
caught); no exception ever escapes. -/
theorem C1_fetch_error_taxonomy :
    (∀ msg, make_api_request (.transportError msg) = mkRequestExceptionRecord msg) ∧
    (∀ s t b, 400 ≤ s → s < 600 →
      make_api_request (.response s t b) = mkHTTPErrorRecord s t) ∧
    (∀ s t j, s < 400 ∨ 600 ≤ s →
      make_api_request (.response s t (some j)) = j) ∧
    (∀ s t, s < 400 ∨ 600 ≤ s →
      make_api_request (.response s t none) =
        mkRequestExceptionRecord ("JSONDecodeError: " ++ t)) := by
  refine ⟨fun msg => rfl, ?_, ?_, ?_⟩
  · intro s t b h1 h2
    simp [make_api_request, raiseForStatusRaises, h1, h2]
  · intro s t j h
    have hr : raiseForStatusRaises s = false := by
      simp [raiseForStatusRaises]
      omega
    simp [make_api_request, hr]
  · intro s t h
    have hr : raiseForStatusRaises s = false := by
      simp [raiseForStatusRaises]
      omega
    simp [make_api_request, hr]

/-- C1 witness: the three return shapes at concrete outcomes. -/
theorem C1_fetch_error_taxonomy_witness :
    make_api_request (.response 404 "nf" (some (.str "x"))) =
      mkHTTPErrorRecord 404 "nf" ∧
    make_api_request (.response 200 "t" (some (.str "x"))) = .str "x" ∧
    make_api_request (.transportError "refused") =
      mkRequestExceptionRecord "refused" :=
  ⟨C1_fetch_error_taxonomy.2.1 404 "nf" _ (by decide) (by decide),
   C1_fetch_error_taxonomy.2.2.1 200 "t" _ (Or.inl (by decide)),
   C1_fetch_error_taxonomy.1 "refused"⟩

/-! ## Shared helper lemmas -/

/-- Reduction of a successful `Except` bind. -/
@[simp] theorem exbind_ok {ε α β : Type} (a : α) (f : α → Except ε β) :
    (Except.ok a >>= f : Except ε β) = f a := rfl

/-- Reduction of a failed `Except` bind. -/
@[simp] theorem exbind_error {ε α β : Type} (e : ε) (f : α → Except ε β) :
    ((Except.error e : Except ε α) >>= f) = .error e := rfl

/-- `pure` into `Except` is `ok`. -/
@[simp] theorem expure {ε α : Type} (a : α) : (pure a : Except ε α) = .ok a := rfl

/-- `.get` on a dict returns the looked-up value or the default. -/
@[simp] theorem Json.getPyD_obj (kvs : List (String × Json)) (k : String)
    (d : Json) : (Json.obj kvs).getPyD k d = .ok ((Json.lookup kvs k).getD d) := by
  unfold Json.getPyD
  cases h : Json.lookup kvs k with
  | none => simp [h]
  | some v => simp [h]

/-- A subscript on a dict returns the looked-up value or a `KeyError`. -/
theorem Json.sub_obj (kvs : List (String × Json)) (k : String) :
    (Json.obj kvs).sub k =
      (match Json.lookup kvs k with
       | some v => .ok v
       | none => .error ("KeyError: " ++ k)) := rfl

/-- A successful subscript means the value is a non-empty dict, hence truthy. -/
theorem Json.sub_ok_isTruthy {j v : Json} {k : String} (h : j.sub k = .ok v) :
    j.isTruthy = true := by
  cases j with
  | obj kvs =>
    cases kvs with
    | nil => simp [Json.sub, Json.lookup] at h
    | cons a rest => simp [Json.isTruthy]
  | null => simp [Json.sub] at h
  | bool b => simp [Json.sub] at h
  | num n => simp [Json.sub] at h
  | str s => simp [Json.sub] at h
  | arr xs => simp [Json.sub] at h

/-- Assigning one key leaves the lookup of any other key unchanged. -/
theorem Json.lookup_insertKV_ne (kvs : List (String × Json)) (k k2 : String)
    (v : Json) (h : k2 ≠ k) :
    Json.lookup (Json.insertKV kvs k v) k2 = Json.lookup kvs k2 := by
  have hne : k ≠ k2 := Ne.symm h
  induction kvs with
  | nil => simp [Json.insertKV, Json.lookup, hne]
  | cons a rest ih =>
    by_cases hk : a.1 = k
    · simp [Json.insertKV, hk, Json.lookup, hne]
    · simp only [Json.insertKV, if_neg hk, Json.lookup]
      by_cases h2 : a.1 = k2
      · simp [h2]
      · simp [h2, ih]

/-- Assigning one key leaves the presence of any other key unchanged. -/
theorem Json.hasKey_set_ne (j v : Json) (k k2 : String) (h : k2 ≠ k) :
    (j.set k v).hasKey k2 = j.hasKey k2 := by
  cases j with
  | obj kvs => simp [Json.set, Json.hasKey, Json.lookup_insertKV_ne _ _ _ _ h]
  | null => rfl
  | bool b => rfl
  | num n => rfl
  | str s => rfl
  | arr xs => rfl

/-! ## C3 - the `cluster_id` sentinel skips health and stats -/

/-- C3: when the located Elasticsearch resource's `info.cluster_id` is the
literal sentinel string `"cluster_id"`, per-deployment processing returns
normally with only `details` attached, the result does not depend on what
any further fetch would return (no health/stats request is issued), and no
key other than `details` is added to the record, so neither
`elasticsearch_cluster_health` nor `elasticsearch_cluster_stats` appears. -/
theorem C3_sentinel_skips_health (fetch fetch2 : String → Json) (host : String)
    (deployment idv details r : Json) (ikvs : List (String × Json))
    (hid : deployment.sub "id" = .ok idv)
    (hdet : fetch (details_url host idv) = details)
    (hdet2 : fetch2 (details_url host idv) = details)
    (hfind : findEsResource details = .ok (some r))
    (hinfo : r.sub "info" = .ok (.obj ikvs))
    (hcid : Json.lookup ikvs "cluster_id" = some (.str "cluster_id")) :
    fetch_deployment_details fetch host deployment =
      .ok (deployment.set "details" details) ∧
    fetch_deployment_details fetch2 host deployment =
      fetch_deployment_details fetch host deployment ∧
    (∀ k2, k2 ≠ "details" →
      (deployment.set "details" details).hasKey k2 = deployment.hasKey k2) := by
  have hrT : r.isTruthy = true := Json.sub_ok_isTruthy hinfo
  have main : ∀ f : String → Json, f (details_url host idv) = details →
      fetch_deployment_details f host deployment =
        .ok (deployment.set "details" details) := by
    intro f hf
    simp only [fetch_deployment_details, hid, exbind_ok, hf, hfind, hrT,
      if_true, hinfo, Json.getPy, Json.getPyD_obj, hcid, Option.getD,
      Json.sub_obj, expure]
    rfl
  exact ⟨main fetch hdet, (main fetch2 hdet2).trans (main fetch hdet).symm,
    fun k2 h => Json.hasKey_set_ne _ _ _ _ h⟩

/-- C3 witness: a concrete not-yet-provisioned deployment - the sentinel
resource is located, the function returns with only `details` attached, and
the health key stays absent. -/
theorem C3_sentinel_skips_health_witness :
    fetch_deployment_details
      (fun _ => Json.obj [("resources", .obj [("elasticsearch",
        .arr [.obj [("info", .obj [("cluster_id", .str "cluster_id")])]])])])
      "https://ece" (.obj [("id", .str "d1")]) =
      .ok ((Json.obj [("id", .str "d1")]).set "details"
        (.obj [("resources", .obj [("elasticsearch",
          .arr [.obj [("info", .obj [("cluster_id", .str "cluster_id")])]])])])) ∧
    ((Json.obj [("id", .str "d1")]).set "details"
        (.obj [("resources", .obj [("elasticsearch",
          .arr [.obj [("info", .obj [("cluster_id", .str "cluster_id")])]])])])).hasKey
      "elasticsearch_cluster_health" = false := by
  refine ⟨(C3_sentinel_skips_health _
    (fun _ => Json.obj [("resources", .obj [("elasticsearch",
      .arr [.obj [("info", .obj [("cluster_id", .str "cluster_id")])]])])])
    "https://ece" _ (.str "d1") _
    (.obj [("info", .obj [("cluster_id", .str "cluster_id")])])
    [("cluster_id", .str "cluster_id")]
    (by decide) rfl rfl (by decide) (by decide) (by decide)).1, by decide⟩

/-! ## C2 - missing navigation fields

The guarded steps (no `resources`, no usable resource entry, absent or falsy
`cluster_id`, a `metadata` dict without a truthy `service_url`) all leave
health/stats unattached and return normally.  But line 150 subscripts
`es_resource["info"]["metadata"]` bare: a resource with a valid `cluster_id`
whose `info` has no `metadata` key raises `KeyError`, and `main` has no
handler, so that one deployment aborts the whole run - refuting the claim as
stated. -/

/-- C2, counterexample: a deployment whose resource has a real `cluster_id`
but no `metadata` key makes `fetch_deployment_details` raise `KeyError`, and
the whole run crashes instead of continuing to the next deployment. -/
theorem C2_missing_metadata_counterexample :
    fetch_deployment_details
      (fun _ => Json.obj [("resources", .obj [("elasticsearch",
        .arr [.obj [("info", .obj [("cluster_id", .str "abc123")])]])])])
      "https://ece" (.obj [("id", .str "d1")]) = .error "KeyError: metadata" ∧
    main_w (some "https://ece") (some "key")
      (fun u =>
        if u = "https://ece/api/v1/deployments" then
          .obj [("deployments", .arr [.obj [("id", .str "d1")]])]
        else if u = "https://ece/api/v1/deployments/d1?show_metadata=true" then
          .obj [("resources", .obj [("elasticsearch",
            .arr [.obj [("info", .obj [("cluster_id", .str "abc123")])]])])]
        else mkRequestExceptionRecord "unreachable") true =
      .crashed "KeyError: metadata" :=
  ⟨by decide, by decide⟩

/-- C2 (amended): every missing-field case the code actually guards is
handled - when no Elasticsearch resource is located, when the located
resource's `cluster_id` is absent or falsy, and when its `metadata` dict has
no truthy `service_url`, the deployment is returned with only `details`
attached (no health/stats keys added), and the summarizer's histogram
buckets a record without the health key as `unknown`.  The one unguarded
step, forced by the counterexample: a truthy, non-sentinel `cluster_id`
whose `info` lacks the `metadata` key raises `KeyError` and aborts the
run. -/
theorem C2_missing_fields (fetch : String → Json) (host : String)
    (deployment idv : Json)
    (hid : deployment.sub "id" = .ok idv) :
    (findEsResource (fetch (details_url host idv)) = .ok none →
      fetch_deployment_details fetch host deployment =
        .ok (deployment.set "details" (fetch (details_url host idv)))) ∧
    (∀ r ikvs, findEsResource (fetch (details_url host idv)) = .ok (some r) →
      r.sub "info" = .ok (.obj ikvs) →
      (Json.lookup ikvs "cluster_id" = none ∨
        (∃ cid, Json.lookup ikvs "cluster_id" = some cid ∧
          cid.isTruthy = false)) →
      fetch_deployment_details fetch host deployment =
        .ok (deployment.set "details" (fetch (details_url host idv)))) ∧
    (∀ r ikvs cid mkvs,
      findEsResource (fetch (details_url host idv)) = .ok (some r) →
      r.sub "info" = .ok (.obj ikvs) →
      Json.lookup ikvs "cluster_id" = some cid → cid.isTruthy = true →
      cid ≠ .str "cluster_id" →
      Json.lookup ikvs "metadata" = some (.obj mkvs) →
      (Json.lookup mkvs "service_url" = none ∨
        (∃ ep, Json.lookup mkvs "service_url" = some ep ∧
          ep.isTruthy = false)) →
      fetch_deployment_details fetch host deployment =
        .ok (deployment.set "details" (fetch (details_url host idv)))) ∧
    (∀ r ikvs cid,
      findEsResource (fetch (details_url host idv)) = .ok (some r) →
      r.sub "info" = .ok (.obj ikvs) →
      Json.lookup ikvs "cluster_id" = some cid → cid.isTruthy = true →
      cid ≠ .str "cluster_id" →
      Json.lookup ikvs "metadata" = none →
      fetch_deployment_details fetch host deployment =
        .error "KeyError: metadata") ∧
    (∀ d : Json, d.hasKey "resources" = false → findEsResource d = .ok none) ∧
    (∀ k2, k2 ≠ "details" →
      (deployment.set "details" (fetch (details_url host idv))).hasKey k2 =
        deployment.hasKey k2) ∧
    (∀ kvs, Json.lookup kvs "elasticsearch_cluster_health" = none →
      healthBucket (.obj kvs) = .ok "unknown") := by
  refine ⟨?_, ?_, ?_, ?_, ?_, fun k2 h => Json.hasKey_set_ne _ _ _ _ h, ?_⟩
  · intro hfind
    simp only [fetch_deployment_details, hid, exbind_ok, hfind, expure]
  · intro r ikvs hfind hinfo hcid
    have hrT : r.isTruthy = true := Json.sub_ok_isTruthy hinfo
    rcases hcid with hnone | ⟨cid, hsome, hfalsy⟩
    · simp only [fetch_deployment_details, hid, exbind_ok, hfind, hrT,
        if_true, hinfo, Json.getPy, Json.getPyD_obj, hnone, Option.getD,
        expure]
      rfl
    · simp only [fetch_deployment_details, hid, exbind_ok, hfind, hrT,
        if_true, hinfo, Json.getPy, Json.getPyD_obj, hsome, Option.getD,
        hfalsy, expure]
      rfl
  · intro r ikvs cid mkvs hfind hinfo hcid hcidT hne hmd hurl
    have hrT : r.isTruthy = true := Json.sub_ok_isTruthy hinfo
    rcases hurl with hnone | ⟨ep, hsome, hfalsy⟩
    · simp only [fetch_deployment_details, hid, exbind_ok, hfind, hrT,
        if_true, hinfo, Json.getPy, Json.getPyD_obj, hcid, Option.getD,
        hcidT, Json.sub_obj, hne, hmd, hnone, expure]
      simp [hne, Json.isTruthy]
    · simp only [fetch_deployment_details, hid, exbind_ok, hfind, hrT,
        if_true, hinfo, Json.getPy, Json.getPyD_obj, hcid, Option.getD,
        hcidT, Json.sub_obj, hne, hmd, hsome, hfalsy, expure]
      simp [hne]
  · intro r ikvs cid hfind hinfo hcid hcidT hne hmd
    have hrT : r.isTruthy = true := Json.sub_ok_isTruthy hinfo
    simp only [fetch_deployment_details, hid, exbind_ok, hfind, hrT,
      if_true, hinfo, Json.getPy, Json.getPyD_obj, hcid, Option.getD,
      hcidT, Json.sub_obj, hne, hmd, expure]
    simp [hne]
  · intro d h
    cases d with
    | obj kvs =>
      simp only [Json.hasKey] at h
      simp only [findEsResource, Json.containsPy, h, exbind_ok]
      rfl
    | null => rfl
    | bool b => rfl
    | num n => rfl
    | str s => rfl
    | arr xs => rfl
  · intro kvs h
    simp only [healthBucket, Json.getPyD_obj, h, Option.getD, exbind_ok]
    rfl

/-- C2 witness: a details response with no `resources` key leaves the record
with only `details` attached, and the summarizer buckets it as `unknown`. -/
theorem C2_missing_fields_witness :
    fetch_deployment_details (fun _ => Json.obj [("foo", .num 1)]) "h"
      (.obj [("id", .str "d")]) =
      .ok ((Json.obj [("id", .str "d")]).set "details"
        (.obj [("foo", .num 1)])) ∧
    healthBucket (.obj [("id", .str "d")]) = .ok "unknown" := by
  have h := C2_missing_fields (fun _ => Json.obj [("foo", .num 1)]) "h"
    (.obj [("id", .str "d")]) (.str "d") (by decide)
  exact ⟨h.1 (h.2.2.2.2.1 _ (by decide)),
    h.2.2.2.2.2.2 [("id", .str "d")] (by decide)⟩

/-! ## C10 - a record with no health key lands in `unknown`, not `error` -/

/-- C10: a deployment record with no `elasticsearch_cluster_health` key at
all defaults to the empty dict, which has no `error` key and no status, so
the histogram counts it in `unknown` (and not in `error`). -/
theorem C10_missing_health_counts_unknown (kvs : List (String × Json))
    (h : Json.lookup kvs "elasticsearch_cluster_health" = none) :
    healthBucket (.obj kvs) = .ok "unknown" ∧
    healthHistogram HealthCounts.zero [.obj kvs] =
      .ok ⟨0, 0, 0, 0, 1⟩ := by
  have hb : healthBucket (.obj kvs) = .ok "unknown" := by
    simp only [healthBucket, Json.getPyD_obj, h, Option.getD, exbind_ok]
    rfl
  refine ⟨hb, ?_⟩
  simp only [healthHistogram, hb, exbind_ok]
  rfl

/-- C10 witness: a concrete record that never had a health fetch. -/
theorem C10_missing_health_counts_unknown_witness :
    healthBucket (.obj [("id", .str "d"), ("name", .str "n")]) =
      .ok "unknown" ∧
    healthHistogram HealthCounts.zero
      [.obj [("id", .str "d"), ("name", .str "n")]] = .ok ⟨0, 0, 0, 0, 1⟩ :=
  C10_missing_health_counts_unknown [("id", .str "d"), ("name", .str "n")]
    (by decide)

/-! ## C4 - the health-status histogram -/

/-- `x in d` on a dict is key membership. -/
theorem Json.containsPy_obj (kvs : List (String × Json)) (k : String) :
    (Json.obj kvs).containsPy k = .ok (Json.lookup kvs k).isSome := rfl

/-- On records of the shape the program builds, the code's bucket matches the
specification's. -/
theorem healthBucket_good (dep : Json) (h : goodHealthRecord dep = true) :
    healthBucket dep = .ok (spec_health_bucket dep) := by
  cases dep with
  | obj kvs =>
    cases hh : Json.lookup kvs "elasticsearch_cluster_health" with
    | none =>
      simp only [healthBucket, Json.getPyD_obj, hh, Option.getD, exbind_ok,
        spec_health_bucket]
      rfl
    | some hv =>
      simp only [goodHealthRecord, hh] at h
      cases hv with
      | obj hk =>
        simp only [healthBucket, Json.getPyD_obj, hh, Option.getD, exbind_ok,
          Json.containsPy_obj, spec_health_bucket, Json.hasKey]
        cases herr : Json.lookup hk "error" with
        | some e => simp [herr]
        | none =>
          simp only [herr, Option.isSome, if_false, Bool.false_eq_true,
            exbind_ok]
          cases hs : Json.lookup hk "status" with
          | none => decide
          | some sv =>
            simp only [hs] at h
            cases sv with
            | str s =>
              simp only [hs]
              split <;> rfl
            | null => simp at h
            | bool b => simp at h
            | num n => simp at h
            | arr xs => simp at h
            | obj o => simp at h
      | null => simp at h
      | bool b => simp at h
      | num n => simp at h
      | str s => simp at h
      | arr xs => simp at h
  | null => simp [goodHealthRecord] at h
  | bool b => simp [goodHealthRecord] at h
  | num n => simp [goodHealthRecord] at h
  | str s => simp [goodHealthRecord] at h
  | arr xs => simp [goodHealthRecord] at h

/-- The fold agreement behind C4. -/
theorem healthHistogram_good (deps : List Json) :
    ∀ acc, (∀ d ∈ deps, goodHealthRecord d = true) →
      healthHistogram acc deps =
        .ok (deps.foldl (fun a d => a.bump (spec_health_bucket d)) acc) := by
  induction deps with
  | nil => intro acc _; rfl
  | cons d rest ih =>
    intro acc h
    have hd := h d (by simp)
    simp only [healthHistogram, healthBucket_good d hd, exbind_ok, List.foldl]
    exact ih _ (fun x hx => h x (by simp [hx]))

/-- C4: over every list of well-shaped deployment records the code's
histogram equals the specification's case-insensitive bucketing (error
records to `error`, unrecognized statuses to `unknown`), and the
specification's concrete example - statuses green, GREEN, red, bogus -
counts green 2, red 1, unknown 1. -/
theorem C4_health_histogram :
    (∀ deps : List Json, (∀ d ∈ deps, goodHealthRecord d = true) →
      healthHistogram HealthCounts.zero deps = .ok (spec_health_counts deps)) ∧
    healthHistogram HealthCounts.zero
      [.obj [("elasticsearch_cluster_health", .obj [("status", .str "green")])],
       .obj [("elasticsearch_cluster_health", .obj [("status", .str "GREEN")])],
       .obj [("elasticsearch_cluster_health", .obj [("status", .str "red")])],
       .obj [("elasticsearch_cluster_health", .obj [("status", .str "bogus")])]] =
      .ok ⟨2, 0, 1, 0, 1⟩ :=
  ⟨fun deps h => healthHistogram_good deps HealthCounts.zero h, by decide⟩

/-- C4 witness: the general half applied to a concrete list (an error
record, a mixed-case status, and a record with no health key). -/
theorem C4_health_histogram_witness :
    healthHistogram HealthCounts.zero
      [.obj [("elasticsearch_cluster_health",
         mkRequestExceptionRecord "connection refused")],
       .obj [("elasticsearch_cluster_health", .obj [("status", .str "YeLLoW")])],
       .obj [("id", .str "d")]] =
      .ok (spec_health_counts
        [.obj [("elasticsearch_cluster_health",
           mkRequestExceptionRecord "connection refused")],
         .obj [("elasticsearch_cluster_health", .obj [("status", .str "YeLLoW")])],
         .obj [("id", .str "d")]]) :=
  C4_health_histogram.1 _ (by decide)

/-! ## C7 - glob filtering in the filtering variant -/

/-- C7: the filtering variant keeps exactly the deployments whose name
matches the glob (over records shaped like the API's - dicts whose `name`,
when present, is a string), and on the specification's example - names
prod-a, prod-b, stage-a with filter `prod-*` - exactly prod-a and prod-b
are kept, in order. -/
theorem C7_glob_filtering :
    (∀ (deps : List Json) (pat : String),
      (∀ d ∈ deps, ∃ kvs, d = .obj kvs ∧
        (Json.lookup kvs "name" = none ∨
          ∃ s, Json.lookup kvs "name" = some (.str s))) →
      MonitorSimple.filter_deployments pat deps = .ok (spec_glob_kept pat deps)) ∧
    MonitorSimple.filter_deployments "prod-*"
      [.obj [("name", .str "prod-a")], .obj [("name", .str "prod-b")],
       .obj [("name", .str "stage-a")]] =
      .ok [.obj [("name", .str "prod-a")], .obj [("name", .str "prod-b")]] := by
  constructor
  · intro deps pat h
    induction deps with
    | nil => rfl
    | cons d rest ih =>
      obtain ⟨kvs, rfl, hname⟩ := h d (by simp)
      have ihr := ih (fun x hx => h x (by simp [hx]))
      rcases hname with hnone | ⟨s, hsome⟩
      · simp only [MonitorSimple.filter_deployments, Json.getPyD_obj, hnone,
          Option.getD, exbind_ok, ihr, spec_glob_kept, List.filter, hnone]
        cases fnmatch "" pat <;> rfl
      · simp only [MonitorSimple.filter_deployments, Json.getPyD_obj, hsome,
          Option.getD, exbind_ok, ihr, spec_glob_kept, List.filter, hsome]
        cases fnmatch s pat <;> rfl
  · decide

/-- C7 witness: the general half applied to a list with a missing name and a
question-mark pattern. -/
theorem C7_glob_filtering_witness :
    MonitorSimple.filter_deployments "prod-?"
      [.obj [("name", .str "prod-a")], .obj [("id", .str "x")],
       .obj [("name", .str "prod-long")]] =
      .ok (spec_glob_kept "prod-?"
        [.obj [("name", .str "prod-a")], .obj [("id", .str "x")],
         .obj [("name", .str "prod-long")]]) :=
  C7_glob_filtering.1 _ "prod-?" (by
    intro d hd
    simp only [List.mem_cons, List.not_mem_nil, or_false] at hd
    rcases hd with rfl | rfl | rfl
    · exact ⟨_, rfl, Or.inr ⟨"prod-a", by decide⟩⟩
    · exact ⟨_, rfl, Or.inl (by decide)⟩
    · exact ⟨_, rfl, Or.inr ⟨"prod-long", by decide⟩⟩)

/-! ## C9 - process exit codes

`monitor_simple.py` hard-codes a non-empty `api_key` placeholder, passes the
credential check, and then executes `verify_ssl = not insecure` - but
`insecure` (like `filter_name` and `output_file`) is never defined anywhere
in the module; the `argparse` import is unused, the CLI-parsing code that
would bind those names is missing.  Every run therefore dies with
`NameError` and a non-zero status even though credentials are present: the
claim is right about the intent and the code is wrong. -/

/-- C9 (code bug): with its hard-coded non-empty key, `monitor_simple.main`
always crashes with `NameError: name insecure is not defined` - no run of it
can exit 0, refuting "exit code is zero when credentials are present".  The
credential check itself behaves as claimed (exit 1 on an empty key), and the
API-key variant exits 1 whenever `HOST` or `API_KEY` is unset. -/
theorem C9_exit_codes_code_bug :
    MonitorSimple.main MonitorSimple.api_key =
      .crashed "NameError: name insecure is not defined" ∧
    MonitorSimple.api_key = "ECE_API_KEY" ∧
    (∀ k w, MonitorSimple.main k ≠ .exited 0 w) ∧
    MonitorSimple.main "" = .exited 1 none ∧
    (∀ apiKeyEnv fetch writeOk,
      main_w none apiKeyEnv fetch writeOk = .exited 1 none) ∧
    (∀ hostEnv fetch writeOk,
      main_w hostEnv none fetch writeOk = .exited 1 none) := by
  refine ⟨by decide, rfl, ?_, rfl, ?_, ?_⟩
  · intro k w
    by_cases hk : k = ""
    · simp [MonitorSimple.main, hk]
    · simp [MonitorSimple.main, hk]
  · intro apiKeyEnv fetch writeOk
    simp [main_w, optTruthy]
  · intro hostEnv fetch writeOk
    simp [main_w, optTruthy]

/-! ## C6 - zero total memory and the used-capacity percentage

`monitor_ece_w_api_key.py` lines 264-270 guard the division: the percentage
is only formatted when `total_mem_gb > 0`, otherwise the literal N/A line
prints.  `monitor_simple.py` line 33 has no guard: with allocators present
and zero total memory the division raises `ZeroDivisionError`, the blanket
`except Exception` of line 51 swallows it, and no "N/A" is ever rendered -
refuting the claim for that variant. -/

/-- Inversion of a successful bind. -/
theorem exbind_ok_inv {ε α β : Type} {x : Except ε α} {f : α → Except ε β}
    {b : β} (h : (x >>= f) = .ok b) : ∃ a, x = .ok a ∧ f a = .ok b := by
  cases x with
  | ok a => exact ⟨a, rfl, h⟩
  | error e => exact absurd h (by simp)

/-- C6, counterexample: in the simple variant, one allocator with zero total
memory makes the summary body raise `ZeroDivisionError`; the summary is cut
short by the blanket handler and no line of the output mentions N/A. -/
theorem C6_simple_divzero_counterexample :
    MonitorSimple.summaryBody (.obj [("allocators", .obj [("allocators",
        .arr [.obj [("capacity", .obj [("memory",
          .obj [("total", .num 0), ("used", .num 0)])])]])])]) =
      (["Allocators: 1 found", "Total Memory Capacity: 0/1024 GB"],
       some "ZeroDivisionError: float division by zero") ∧
    MonitorSimple.print_summary (.obj [("allocators", .obj [("allocators",
        .arr [.obj [("capacity", .obj [("memory",
          .obj [("total", .num 0), ("used", .num 0)])])]])])]) =
      ["Allocators: 1 found", "Total Memory Capacity: 0/1024 GB",
       "\nCould not generate summary : ZeroDivisionError: float division by zero",
       "-------------------------"] ∧
    (["Allocators: 1 found", "Total Memory Capacity: 0/1024 GB",
      "\nCould not generate summary : ZeroDivisionError: float division by zero",
      "-------------------------"].all
        (fun l => !charsInside ['N', '/', 'A'] l.data)) = true :=
  ⟨by decide, by decide, by decide⟩

/-- C6 (amended): in the API-key variant, whenever the allocator section
completes and the summed `capacity.memory.total` is zero, the output
contains the literal N/A line (the guarded branch; the division is never
reached, as the section's success shows - a division by zero would have
raised).  In the simple variant the claim fails: with allocators present and
zero total, the body stops with `ZeroDivisionError` right after the first
two lines and renders no percentage and no N/A; the blanket handler then
reports "Could not generate summary". -/
theorem C6_zero_total_capacity (resp : Json) (flat : List Json)
    (lines : List String)
    (hne : flat.isEmpty = false)
    (h0 : sumCapacity "capacity" "memory" "total" 0 flat = .ok 0)
    (hlines : allocatorLines resp flat = .ok lines) :
    "  Used Memory Capacity: N/A" ∈ lines ∧
    (∀ (al : List Json) (rest : List (String × Json)) (u : Int),
      al ≠ [] → al.contains (.str "error") = false →
      MonitorSimple.sumCapSimple "total" 0 al = .ok 0 →
      MonitorSimple.sumCapSimple "used" 0 al = .ok u →
      MonitorSimple.summaryBody
        (.obj (("allocators", .obj [("allocators", .arr al)]) :: rest)) =
        (["Allocators: " ++ toString al.length ++ " found",
          "Total Memory Capacity: " ++ (PyFloat.by1024 (0 : Int)).fmt ++ " GB"],
         some "ZeroDivisionError: float division by zero")) := by
  constructor
  · simp only [allocatorLines, hne, Bool.not_false, if_true, h0, exbind_ok] at hlines
    obtain ⟨u, hu, hlines⟩ := exbind_ok_inv hlines
    obtain ⟨st, hst, hlines⟩ := exbind_ok_inv hlines
    obtain ⟨ic, hic, hlines⟩ := exbind_ok_inv hlines
    have hgt : (PyFloat.by1024 (0 : Int)).gtZero = false := rfl
    simp only [hgt, Bool.false_eq_true, if_false, expure, exbind_ok] at hlines
    obtain ⟨hc, hhc, hlines⟩ := exbind_ok_inv hlines
    obtain ⟨fs, hfs, hlines⟩ := exbind_ok_inv hlines
    obtain ⟨sf, hsf, hlines⟩ := exbind_ok_inv hlines
    obtain ⟨fj, hfj, hlines⟩ := exbind_ok_inv hlines
    have : lines =
        ["\n--- Allocators (" ++ toString flat.length ++ " found) ---",
         "  Total Memory Capacity: " ++ (PyFloat.by1024 (0 : Int)).fmt ++ " GB",
         "  Used Memory Capacity: N/A",
         "  Total Storage: " ++ (PyFloat.by1024 st).fmt ++ " GB",
         "  Total Instances: " ++ toString ic,
         "  Healthy Allocators: " ++ toString hc ++ "/" ++ toString flat.length,
         "  Healthy Allocators: " ++ toString hc ++ "/" ++ toString flat.length,
         "  Available Features: " ++ fj] := by
      exact (Except.ok.inj hlines).symm
    rw [this]
    simp
  · intro al rest u hne2 herr ht hu2
    have hempty : al.isEmpty = false := by
      cases al with
      | nil => exact absurd rfl hne2
      | cons a r => rfl
    simp only [MonitorSimple.summaryBody, Json.getPyD_obj, Json.lookup,
      if_pos rfl, Option.getD, exbind_ok, Json.isTruthy, hempty,
      Bool.not_false, if_true, Json.containsPy, herr, Bool.not_false,
      Json.iterPy, ht, hu2, Json.lenPy, expure, PyFloat.div, PyFloat.by1024]

/-- C6 witness: a concrete zero-total allocator list in each variant. -/
theorem C6_zero_total_capacity_witness :
    "  Used Memory Capacity: N/A" ∈
      ["\n--- Allocators (1 found) ---",
       "  Total Memory Capacity: 0/1024 GB",
       "  Used Memory Capacity: N/A",
       "  Total Storage: 0/1024 GB",
       "  Total Instances: 0",
       "  Healthy Allocators: 0/1",
       "  Healthy Allocators: 0/1",
       "  Available Features: "] ∧
    MonitorSimple.summaryBody (.obj [("allocators", .obj [("allocators",
      .arr [.obj [("capacity", .obj [("memory",
        .obj [("total", .num 0), ("used", .num 5)])])]])])]) =
      (["Allocators: 1 found", "Total Memory Capacity: 0/1024 GB"],
       some "ZeroDivisionError: float division by zero") := by
  have h := C6_zero_total_capacity (.obj [])
    [.obj [("capacity", .obj [("memory",
      .obj [("total", .num 0), ("used", .num 0)])])]]
    ["\n--- Allocators (1 found) ---",
     "  Total Memory Capacity: 0/1024 GB",
     "  Used Memory Capacity: N/A",
     "  Total Storage: 0/1024 GB",
     "  Total Instances: 0",
     "  Healthy Allocators: 0/1",
     "  Healthy Allocators: 0/1",
     "  Available Features: "]
    (by decide) (by decide) (by decide)
  exact ⟨h.1,
    h.2 [.obj [("capacity", .obj [("memory",
        .obj [("total", .num 0), ("used", .num 5)])])]] [] 5
      (by decide) (by decide) (by decide) (by decide)⟩

/-! ## C5 - an error on the deployment list empties `deployments_details`

An error record has no `deployments` key, so `fetch_deployment_list`'s
`.get("deployments", [])` yields `[]`; the loop body never runs, the report
keeps `deployments_details = []`, the summarizer's deployment section prints
the empty message, and the run exits 0 after writing the file. -/

/-- C5: when the deployment-list fetch returns an error record (either
shape), `main` completes with exit code 0, the report's
`deployments_details` is the empty list, the file content is the serialized
report (when the write succeeds), the summarizer's deployment section
completes on the empty list, and the run consults no URL beyond the three
top-level ones - in particular it issues no per-deployment fetch. -/
theorem C5_deplist_error_empty_details (host apiKey : String)
    (fetch : String → Json) (writeOk : Bool) (pl zl al : List String)
    (flat : List Json)
    (hhost : host ≠ "") (hkey : apiKey ≠ "")
    (herr : (∃ s t, fetch (host ++ "/api/v1/deployments") =
              mkHTTPErrorRecord s t) ∨
            (∃ m, fetch (host ++ "/api/v1/deployments") =
              mkRequestExceptionRecord m))
    (hpl : platformLines (Json.obj
      [("platform_info", fetch (host ++ "/api/v1/platform")),
       ("allocators", fetch (host ++ "/api/v1/platform/infrastructure/allocators")),
       ("deployments_details", .arr [])]) = .ok pl)
    (hzl : zoneLines (Json.obj
      [("platform_info", fetch (host ++ "/api/v1/platform")),
       ("allocators", fetch (host ++ "/api/v1/platform/infrastructure/allocators")),
       ("deployments_details", .arr [])]) = .ok zl)
    (hfl : flattenAllocators
      (fetch (host ++ "/api/v1/platform/infrastructure/allocators")) = .ok flat)
    (hal : allocatorLines
      (fetch (host ++ "/api/v1/platform/infrastructure/allocators")) flat =
      .ok al) :
    main_w (some host) (some apiKey) fetch writeOk =
      .exited 0 (save_metrics_to_file (Json.obj
        [("platform_info", fetch (host ++ "/api/v1/platform")),
         ("allocators", fetch (host ++ "/api/v1/platform/infrastructure/allocators")),
         ("deployments_details", .arr [])]) writeOk) ∧
    Json.lookup
      [("platform_info", fetch (host ++ "/api/v1/platform")),
       ("allocators", fetch (host ++ "/api/v1/platform/infrastructure/allocators")),
       ("deployments_details", .arr [])] "deployments_details" =
      some (.arr []) ∧
    deploymentLines (Json.obj
      [("platform_info", fetch (host ++ "/api/v1/platform")),
       ("allocators", fetch (host ++ "/api/v1/platform/infrastructure/allocators")),
       ("deployments_details", .arr [])]) =
      .ok ["\n--- Inspected Deployments (0 found) ---",
           "  No deployments found or collected."] ∧
    (∀ fetch2 : String → Json,
      fetch2 (host ++ "/api/v1/platform") = fetch (host ++ "/api/v1/platform") →
      fetch2 (host ++ "/api/v1/platform/infrastructure/allocators") =
        fetch (host ++ "/api/v1/platform/infrastructure/allocators") →
      fetch2 (host ++ "/api/v1/deployments") =
        fetch (host ++ "/api/v1/deployments") →
      main_w (some host) (some apiKey) fetch2 writeOk =
        main_w (some host) (some apiKey) fetch writeOk) := by
  have hdl2 : deploymentLines (Json.obj
      [("platform_info", fetch (host ++ "/api/v1/platform")),
       ("allocators", fetch (host ++ "/api/v1/platform/infrastructure/allocators")),
       ("deployments_details", .arr [])]) =
      .ok ["\n--- Inspected Deployments (0 found) ---",
           "  No deployments found or collected."] := rfl
  have hresp : (Json.obj
      [("platform_info", fetch (host ++ "/api/v1/platform")),
       ("allocators", fetch (host ++ "/api/v1/platform/infrastructure/allocators")),
       ("deployments_details", .arr [])]).getPyD "allocators" (.obj []) =
      .ok (fetch (host ++ "/api/v1/platform/infrastructure/allocators")) := rfl
  have hps : print_summary_w (Json.obj
      [("platform_info", fetch (host ++ "/api/v1/platform")),
       ("allocators", fetch (host ++ "/api/v1/platform/infrastructure/allocators")),
       ("deployments_details", .arr [])]) =
      .ok ((["\n" ++ String.mk (List.replicate 50 '='),
             "                 METRICS SUMMARY",
             String.mk (List.replicate 50 '=')] ++ pl ++ zl ++ al ++
            ["\n--- Inspected Deployments (0 found) ---",
             "  No deployments found or collected."] ++
            ["\n" ++ String.mk (List.replicate 80 '=') ++ "\n"])) := by
    simp only [print_summary_w, hpl, exbind_ok, hzl, hresp, hfl, hal, hdl2,
      expure]
  have run : ∀ f : String → Json,
      f (host ++ "/api/v1/platform") = fetch (host ++ "/api/v1/platform") →
      f (host ++ "/api/v1/platform/infrastructure/allocators") =
        fetch (host ++ "/api/v1/platform/infrastructure/allocators") →
      f (host ++ "/api/v1/deployments") =
        fetch (host ++ "/api/v1/deployments") →
      main_w (some host) (some apiKey) f writeOk =
        .exited 0 (save_metrics_to_file (Json.obj
          [("platform_info", fetch (host ++ "/api/v1/platform")),
           ("allocators", fetch (host ++ "/api/v1/platform/infrastructure/allocators")),
           ("deployments_details", .arr [])]) writeOk) := by
    intro f hfp hfa hfd
    have h1 : optTruthy (some host) = true := by simp [optTruthy, hhost]
    have h2 : optTruthy (some apiKey) = true := by simp [optTruthy, hkey]
    have hdl : fetch_deployment_list f host = .ok (.arr []) := by
      unfold fetch_deployment_list
      rw [hfd]
      rcases herr with ⟨s, t, hc⟩ | ⟨m, hc⟩
      · rw [hc]; rfl
      · rw [hc]; rfl
    have hpa : fetch_platform_and_allocators f host =
        Json.obj
          [("platform_info", fetch (host ++ "/api/v1/platform")),
           ("allocators",
            fetch (host ++ "/api/v1/platform/infrastructure/allocators"))] := by
      rw [← hfp, ← hfa]; rfl
    have hif : (Json.arr []).isTruthy = false := rfl
    have hrep : ((Json.obj []).update (Json.obj
        [("platform_info", fetch (host ++ "/api/v1/platform")),
         ("allocators",
          fetch (host ++ "/api/v1/platform/infrastructure/allocators"))])).set
        "deployments_details" (Json.arr []) =
        Json.obj
          [("platform_info", fetch (host ++ "/api/v1/platform")),
           ("allocators",
            fetch (host ++ "/api/v1/platform/infrastructure/allocators")),
           ("deployments_details", .arr [])] := rfl
    unfold main_w
    rw [h1, h2]
    simp only [Bool.and_self, Bool.not_true, Bool.false_eq_true, if_false,
      Option.getD, hpa, hdl, hif, expure, hrep, hps]
  exact ⟨run fetch rfl rfl rfl, rfl, hdl2,
    fun f2 ha hb hc => (run f2 ha hb hc).trans (run fetch rfl rfl rfl).symm⟩

/-- C5 witness: a concrete run whose deployment-list call fails with HTTP
503 (and whose other two calls fail at transport level) - the run exits 0
and writes the report with an empty `deployments_details`. -/
theorem C5_deplist_error_empty_details_witness :
    main_w (some "h") (some "k")
      (fun u => if u = "h/api/v1/deployments" then mkHTTPErrorRecord 503 "down"
                else mkRequestExceptionRecord "nope") true =
      .exited 0 (save_metrics_to_file (Json.obj
        [("platform_info", mkRequestExceptionRecord "nope"),
         ("allocators", mkRequestExceptionRecord "nope"),
         ("deployments_details", .arr [])]) true) := by
  have h := C5_deplist_error_empty_details "h" "k"
    (fun u => if u = "h/api/v1/deployments" then mkHTTPErrorRecord 503 "down"
              else mkRequestExceptionRecord "nope") true
    ["\n--- Platform Info ---", "  Version: Unknown"]
    ["\n--- Zones (0 found) ---"]
    ["\n--- Allocators: Could not retrieve data or no allocators found. ---",
     "  Error details: nope"]
    []
    (by decide) (by decide)
    (Or.inl ⟨503, "down", by decide⟩)
    (by decide) (by decide) (by decide) (by decide)
  exact h.1

/-! ## C8 - round trip of the persisted report

The proof stack: whitespace lemmas, correctness of the numeral scan against
`Nat.toDigits` (which is what `toString` on integers produces), correctness
of the string scan against the escaper, head-shape facts about rendered
values, decompositions of the rendered item/field lists, and finally the
mutual completeness lemmas for `parseVal`/`parseItems`/`parseFields` on
rendered documents. -/

/-- Indentation is all whitespace. -/
theorem allWs_replicate_space (n : Nat) : allWs (List.replicate n ' ') = true := by
  induction n with
  | zero => rfl
  | succ k ih =>
    simp only [List.replicate_succ, allWs, List.all_cons, Bool.and_eq_true] at ih ⊢
    exact ⟨by decide, ih⟩

/-- The pad of any level is all whitespace. -/
theorem allWs_pad (lvl : Nat) : allWs (pad lvl) = true := allWs_replicate_space _

/-- Skipping starts after any all-whitespace prefix. -/
theorem skipWs_append (l s : List Char) (h : allWs l = true) :
    skipWs (l ++ s) = skipWs s := by
  induction l with
  | nil => rfl
  | cons c r ih =>
    simp only [allWs, List.all_cons, Bool.and_eq_true] at h
    simp only [List.cons_append, skipWs, h.1, if_true]
    exact ih (by simp [allWs, h.2])

/-- Skipping stops at a non-whitespace head. -/
theorem skipWs_not_ws (c : Char) (s : List Char) (h : isWsChar c = false) :
    skipWs (c :: s) = c :: s := by
  simp [skipWs, h]

/-- Skipping is idempotent. -/
theorem skipWs_idem (s : List Char) : skipWs (skipWs s) = skipWs s := by
  induction s with
  | nil => rfl
  | cons c r ih =>
    by_cases h : isWsChar c = true
    · simp [skipWs, h, ih]
    · simp [skipWs, h]

/-- `parseVal` only looks at its input through `skipWs`. -/
theorem parseVal_skipWs (fuel : Nat) (s : List Char) :
    parseVal (fuel + 1) s = parseVal (fuel + 1) (skipWs s) := by
  simp only [parseVal, skipWs_idem]

/-- Digit-run valuation distributes over append. -/
theorem digitsVal_append : ∀ (xs : List Char) (a : Nat) (ys : List Char),
    digitsVal a (xs ++ ys) = digitsVal (digitsVal a xs) ys
  | [], _, _ => rfl
  | c :: r, a, ys => digitsVal_append r (a * 10 + (c.toNat - 48)) ys

/-- Unfolding of the valuation on nil. -/
theorem digitsVal_nil (a : Nat) : digitsVal a [] = a := rfl

/-- Unfolding of the valuation on cons. -/
theorem digitsVal_cons (a : Nat) (c : Char) (r : List Char) :
    digitsVal a (c :: r) = digitsVal (a * 10 + (c.toNat - 48)) r := rfl

/-- Unfolding of the digit scan on nil. -/
theorem scanDigits_nil (a : Nat) : scanDigits a [] = (a, []) := rfl

/-- Unfolding of the digit scan on cons. -/
theorem scanDigits_cons (a : Nat) (c : Char) (r : List Char) :
    scanDigits a (c :: r) =
      (if isDigitChar c then scanDigits (a * 10 + (c.toNat - 48)) r
       else (a, c :: r)) := rfl

/-- The code point of a decimal digit character. -/
theorem digitChar_toNat (d : Nat) (h : d < 10) :
    (Nat.digitChar d).toNat = 48 + d := by
  interval_cases d <;> decide

/-- A decimal digit character passes `isDigitChar`. -/
theorem digitChar_isDigit (d : Nat) (h : d < 10) :
    isDigitChar (Nat.digitChar d) = true := by
  interval_cases d <;> decide

/-- What a digit character is not. -/
theorem isDigitChar_facts (c : Char) (h : isDigitChar c = true) :
    isWsChar c = false ∧ c ≠ ']' ∧ c ≠ ',' ∧ c ≠ '-' ∧ c ≠ 'n' ∧ c ≠ 't' ∧
    c ≠ 'f' ∧ c ≠ '"' ∧ c ≠ '[' ∧ c ≠ lbrace ∧ c ≠ rbrace ∧ c ≠ ':' := by
  have hb : 48 ≤ c.toNat ∧ c.toNat ≤ 57 := by
    simpa [isDigitChar, Bool.and_eq_true] using h
  refine ⟨?_, ?_, ?_, ?_, ?_, ?_, ?_, ?_, ?_, ?_, ?_, ?_⟩
  · simp only [isWsChar, Bool.or_eq_false_iff, decide_eq_false_iff_not]
    omega
  all_goals intro hc
  all_goals rw [hc] at hb
  all_goals revert hb
  all_goals decide

/-- Character content of `Nat.toDigitsCore`: a non-empty digit run whose
value is the number. -/
theorem toDigitsCore_spec : ∀ (fuel n : Nat) (ds : List Char), n < fuel →
    ∃ dl, Nat.toDigitsCore 10 fuel n ds = dl ++ ds ∧ dl ≠ [] ∧
      allDigits dl = true ∧ digitsVal 0 dl = n := by
  intro fuel
  induction fuel with
  | zero => intro n ds h; omega
  | succ f ih =>
    intro n ds h
    rw [show Nat.toDigitsCore 10 (f + 1) n ds =
        (if n / 10 = 0 then (n % 10).digitChar :: ds
         else Nat.toDigitsCore 10 f (n / 10) ((n % 10).digitChar :: ds))
      from rfl]
    by_cases h0 : n / 10 = 0
    · refine ⟨[(n % 10).digitChar], by simp [h0], by simp, ?_, ?_⟩
      · simp [allDigits, digitChar_isDigit _ (Nat.mod_lt _ (by norm_num))]
      · simp only [digitsVal_cons, digitsVal_nil,
          digitChar_toNat _ (Nat.mod_lt _ (by norm_num))]
        omega
    · have hlt : n / 10 < f := by omega
      obtain ⟨dl, heq, hne, hdig, hval⟩ :=
        ih (n / 10) ((n % 10).digitChar :: ds) hlt
      refine ⟨dl ++ [(n % 10).digitChar], ?_, by simp, ?_, ?_⟩
      · rw [if_neg h0, heq]
        simp
      · simp only [allDigits, List.all_append, Bool.and_eq_true] at hdig ⊢
        exact ⟨hdig, by
          simp [digitChar_isDigit _ (Nat.mod_lt _ (by norm_num))]⟩
      · rw [digitsVal_append, hval]
        simp only [digitsVal_cons, digitsVal_nil,
          digitChar_toNat _ (Nat.mod_lt _ (by norm_num))]
        omega

/-- Character content of `Nat.toDigits` base 10. -/
theorem toDigits_spec (n : Nat) :
    Nat.toDigits 10 n ≠ [] ∧ allDigits (Nat.toDigits 10 n) = true ∧
      digitsVal 0 (Nat.toDigits 10 n) = n := by
  obtain ⟨dl, heq, hne, hdig, hval⟩ := toDigitsCore_spec (n + 1) n [] (by omega)
  have : Nat.toDigits 10 n = dl := by simpa [Nat.toDigits] using heq
  rw [this]
  exact ⟨hne, hdig, hval⟩

/-- The digit scan consumes exactly a digit run. -/
theorem scanDigits_spec : ∀ (dl rest : List Char) (acc : Nat),
    allDigits dl = true →
    (∀ c cs, rest = c :: cs → isDigitChar c = false) →
    scanDigits acc (dl ++ rest) = (digitsVal acc dl, rest) := by
  intro dl
  induction dl with
  | nil =>
    intro rest acc _ hrest
    cases rest with
    | nil => rfl
    | cons c cs =>
      simp only [List.nil_append, scanDigits_cons, hrest c cs rfl,
        Bool.false_eq_true, if_false, digitsVal_nil]
  | cons d r ih =>
    intro rest acc hdig hrest
    simp only [allDigits, List.all_cons, Bool.and_eq_true] at hdig
    simp only [List.cons_append, scanDigits_cons, hdig.1, if_true,
      digitsVal_cons]
    exact ih rest _ (by simp [allDigits, hdig.2]) hrest

/-- The scan closes on an unescaped quote. -/
theorem scanStr_close (acc r : List Char) :
    scanStr acc ('"' :: r) = some (String.mk acc.reverse, r) := by
  rw [scanStr.eq_def]
  rfl

/-- The scan decodes an escaped quote. -/
theorem scanStr_esc_quote (acc r : List Char) :
    scanStr acc ('\\' :: '"' :: r) = scanStr ('"' :: acc) r := by
  rw [scanStr.eq_def]
  rfl

/-- The scan decodes an escaped backslash. -/
theorem scanStr_esc_bs (acc r : List Char) :
    scanStr acc ('\\' :: '\\' :: r) = scanStr ('\\' :: acc) r := by
  rw [scanStr.eq_def]
  rfl

/-- The scan decodes an escaped newline. -/
theorem scanStr_esc_n (acc r : List Char) :
    scanStr acc ('\\' :: 'n' :: r) = scanStr (Char.ofNat 10 :: acc) r := by
  rw [scanStr.eq_def]
  rfl

/-- The scan decodes an escaped tab. -/
theorem scanStr_esc_t (acc r : List Char) :
    scanStr acc ('\\' :: 't' :: r) = scanStr (Char.ofNat 9 :: acc) r := by
  rw [scanStr.eq_def]
  rfl

/-- The scan decodes an escaped carriage return. -/
theorem scanStr_esc_r (acc r : List Char) :
    scanStr acc ('\\' :: 'r' :: r) = scanStr (Char.ofNat 13 :: acc) r := by
  rw [scanStr.eq_def]
  rfl

/-- The scan decodes an escaped backspace. -/
theorem scanStr_esc_b (acc r : List Char) :
    scanStr acc ('\\' :: 'b' :: r) = scanStr (Char.ofNat 8 :: acc) r := by
  rw [scanStr.eq_def]
  rfl

/-- The scan decodes an escaped form feed. -/
theorem scanStr_esc_f (acc r : List Char) :
    scanStr acc ('\\' :: 'f' :: r) = scanStr (Char.ofNat 12 :: acc) r := by
  rw [scanStr.eq_def]
  rfl

/-- The scan decodes a hexadecimal escape. -/
theorem scanStr_esc_u (acc : List Char) (h1 h2 h3 h4 : Char) (r : List Char) :
    scanStr acc ('\\' :: 'u' :: h1 :: h2 :: h3 :: h4 :: r) =
      (match hexVal h1, hexVal h2, hexVal h3, hexVal h4 with
       | some a, some b, some cc, some d =>
         scanStr (Char.ofNat (a * 4096 + b * 256 + cc * 16 + d) :: acc) r
       | _, _, _, _ => none) := rfl

/-- The scan copies a plain character. -/
theorem scanStr_plain (acc : List Char) (c : Char) (r : List Char)
    (h1 : ¬(c = '"')) (h2 : ¬(c = '\\')) :
    scanStr acc (c :: r) = scanStr (c :: acc) r := by
  rw [scanStr.eq_def]
  simp only [if_neg h1, if_neg h2]

/-- A hexadecimal digit written by the escaper reads back to its value. -/
theorem hexVal_hexDigitChar (d : Nat) (h : d < 16) :
    hexVal (hexDigitChar d) = some d := by
  interval_cases d <;> decide

/-- The string scan inverts the escaper: started on an escaped body followed
by the closing quote, it returns the original characters appended in order
after the reversed accumulator. -/
theorem scanStr_escChars : ∀ (cs acc rest : List Char),
    scanStr acc (escChars cs ++ '"' :: rest) =
      some (String.mk (acc.reverse ++ cs), rest) := by
  intro cs
  induction cs with
  | nil =>
    intro acc rest
    simp only [escChars, List.nil_append, scanStr_close, List.append_nil]
  | cons c cs ih =>
    intro acc rest
    simp only [escChars, List.append_assoc]
    by_cases hbs : c = '\\'
    · subst hbs
      rw [show escChar '\\' = ['\\', '\\'] from by decide]
      simp only [List.cons_append, List.nil_append, scanStr_esc_bs, ih]
      simp
    · by_cases hq : c = '"'
      · subst hq
        rw [show escChar '"' = ['\\', '"'] from by decide]
        simp only [List.cons_append, List.nil_append, scanStr_esc_quote, ih]
        simp
      · by_cases hn : c = Char.ofNat 10
        · subst hn
          rw [show escChar (Char.ofNat 10) = ['\\', 'n'] from by decide]
          simp only [List.cons_append, List.nil_append, scanStr_esc_n, ih]
          simp
        · by_cases hr : c = Char.ofNat 13
          · subst hr
            rw [show escChar (Char.ofNat 13) = ['\\', 'r'] from by decide]
            simp only [List.cons_append, List.nil_append, scanStr_esc_r, ih]
            simp
          · by_cases ht : c = Char.ofNat 9
            · subst ht
              rw [show escChar (Char.ofNat 9) = ['\\', 't'] from by decide]
              simp only [List.cons_append, List.nil_append, scanStr_esc_t, ih]
              simp
            · by_cases hb : c = Char.ofNat 8
              · subst hb
                rw [show escChar (Char.ofNat 8) = ['\\', 'b'] from by decide]
                simp only [List.cons_append, List.nil_append, scanStr_esc_b, ih]
                simp
              · by_cases hf : c = Char.ofNat 12
                · subst hf
                  rw [show escChar (Char.ofNat 12) = ['\\', 'f'] from by decide]
                  simp only [List.cons_append, List.nil_append,
                    scanStr_esc_f, ih]
                  simp
                · by_cases hc : c.toNat < 32
                  · rw [show escChar c =
                        ['\\', 'u', '0', '0', hexDigitChar (c.toNat / 16),
                         hexDigitChar (c.toNat % 16)] from by
                      simp only [escChar, if_neg hbs, if_neg hq, if_neg hn,
                        if_neg hr, if_neg ht, if_neg hb, if_neg hf, if_pos hc]]
                    simp only [List.cons_append, List.nil_append,
                      scanStr_esc_u]
                    rw [hexVal_hexDigitChar (c.toNat / 16) (by omega),
                      hexVal_hexDigitChar (c.toNat % 16) (by omega)]
                    simp only [show hexVal (Char.ofNat 48) = some 0 from by
                      decide]
                    have harith : 0 * 4096 + 0 * 256 + c.toNat / 16 * 16 +
                        c.toNat % 16 = c.toNat := by omega
                    rw [harith, Char.ofNat_toNat, ih]
                    simp
                  · rw [show escChar c = [c] from by
                      simp only [escChar, if_neg hbs, if_neg hq, if_neg hn,
                        if_neg hr, if_neg ht, if_neg hb, if_neg hf, if_neg hc]]
                    simp only [List.cons_append, List.nil_append]
                    rw [scanStr_plain _ _ _ hq hbs, ih]
                    simp

/-- Parsing what `toString` writes for an integer recovers the integer, when
the remainder does not start with a digit. -/
theorem parseNum_render (n : Int) (rest : List Char)
    (hrest : ∀ c cs, rest = c :: cs → isDigitChar c = false) :
    parseNum ((toString n).data ++ rest) = some (.num n, rest) := by
  cases n with
  | ofNat m =>
    obtain ⟨hne, hdig, hval⟩ := toDigits_spec m
    rw [show (toString (Int.ofNat m)).data = Nat.toDigits 10 m from rfl]
    cases hdl : Nat.toDigits 10 m with
    | nil => exact absurd hdl hne
    | cons c cs =>
      rw [hdl] at hdig hval
      have hdigc : isDigitChar c = true := by
        simp only [allDigits, List.all_cons, Bool.and_eq_true] at hdig
        exact hdig.1
      have hfacts := isDigitChar_facts c hdigc
      simp only [List.cons_append, parseNum, if_neg hfacts.2.2.2.1, hdigc,
        if_true]
      rw [← List.cons_append, scanDigits_spec (c :: cs) rest 0 hdig hrest,
        hval]
      rfl
  | negSucc m =>
    obtain ⟨hne, hdig, hval⟩ := toDigits_spec (m + 1)
    rw [show (toString (Int.negSucc m)).data =
        '-' :: Nat.toDigits 10 (m + 1) from rfl]
    cases hdl : Nat.toDigits 10 (m + 1) with
    | nil => exact absurd hdl hne
    | cons c cs =>
      rw [hdl] at hdig hval
      have hdigc : isDigitChar c = true := by
        simp only [allDigits, List.all_cons, Bool.and_eq_true] at hdig
        exact hdig.1
      simp only [List.cons_append, parseNum, if_pos rfl, hdigc, if_true]
      rw [← List.cons_append, scanDigits_spec (c :: cs) rest 0 hdig hrest,
        hval]
      simp [Int.negSucc_eq]

/-- A string is its character list. -/
theorem strMk_data (s : String) : String.mk s.data = s := rfl

/-- Skipping passes over one whitespace character. -/
theorem skipWs_cons_ws (c : Char) (s : List Char) (h : isWsChar c = true) :
    skipWs (c :: s) = skipWs s := by
  simp [skipWs, h]

/-- `parseVal` is insensitive to leading whitespace at any fuel. -/
theorem parseVal_skipWs_all (fuel : Nat) (s : List Char) :
    parseVal fuel s = parseVal fuel (skipWs s) := by
  cases fuel with
  | zero => rfl
  | succ f => exact parseVal_skipWs f s

/-- Unfolding of `parseItems` at positive fuel. -/
theorem parseItems_succ (f : Nat) (s : List Char) :
    parseItems (f + 1) s =
      match parseVal f s with
      | none => none
      | some (v, r) =>
        match skipWs r with
        | [] => none
        | c :: r2 =>
          if c = ',' then (parseItems f r2).map (fun p => (v :: p.1, p.2))
          else if c = ']' then some ([v], r2)
          else none := by
  rw [parseItems.eq_def]

/-- Unfolding of `parseFields` at positive fuel. -/
theorem parseFields_succ (f : Nat) (acc : List (String × Json)) (s : List Char) :
    parseFields (f + 1) acc s =
      match skipWs s with
      | [] => none
      | c :: r =>
        if c = '"' then
          match scanStr [] r with
          | none => none
          | some (k, r2) =>
            match skipWs r2 with
            | [] => none
            | c2 :: r3 =>
              if c2 = ':' then
                match parseVal f r3 with
                | none => none
                | some (v, r4) =>
                  let acc1 := Json.insertKV acc k v
                  (match skipWs r4 with
                   | [] => none
                   | c3 :: r5 =>
                     if c3 = ',' then parseFields f acc1 r5
                     else if c3 = rbrace then some (acc1, r5)
                     else none)
              else none
        else none := by
  rw [parseFields.eq_def]

/-- `parseItems` is insensitive to leading whitespace. -/
theorem parseItems_skipWs (fuel : Nat) (s : List Char) :
    parseItems fuel s = parseItems fuel (skipWs s) := by
  cases fuel with
  | zero => rfl
  | succ f =>
    rw [parseItems_succ f s, parseItems_succ f (skipWs s),
      ← parseVal_skipWs_all f s]

/-- `parseFields` is insensitive to leading whitespace. -/
theorem parseFields_skipWs (fuel : Nat) (acc : List (String × Json))
    (s : List Char) :
    parseFields fuel acc s = parseFields fuel acc (skipWs s) := by
  cases fuel with
  | zero => rfl
  | succ f =>
    rw [parseFields_succ f acc s, parseFields_succ f acc (skipWs s),
      skipWs_idem]

/-- `parseVal` dispatch on head `n`. -/
theorem parseVal_head_n (f : Nat) (r : List Char) :
    parseVal (f + 1) ('n' :: r) =
      (expectChars ['u', 'l', 'l'] r).map (fun r2 => (Json.null, r2)) := by
  rw [parseVal.eq_def]
  rfl

/-- `parseVal` dispatch on head `t`. -/
theorem parseVal_head_t (f : Nat) (r : List Char) :
    parseVal (f + 1) ('t' :: r) =
      (expectChars ['r', 'u', 'e'] r).map (fun r2 => (Json.bool true, r2)) := by
  rw [parseVal.eq_def]
  rfl

/-- `parseVal` dispatch on head `f`. -/
theorem parseVal_head_f (f : Nat) (r : List Char) :
    parseVal (f + 1) ('f' :: r) =
      (expectChars ['a', 'l', 's', 'e'] r).map
        (fun r2 => (Json.bool false, r2)) := by
  rw [parseVal.eq_def]
  rfl

/-- `parseVal` dispatch on an opening quote. -/
theorem parseVal_head_q (f : Nat) (r : List Char) :
    parseVal (f + 1) ('"' :: r) =
      (scanStr [] r).map (fun p => (Json.str p.1, p.2)) := by
  rw [parseVal.eq_def]
  rfl

/-- `parseVal` dispatch on an opening bracket. -/
theorem parseVal_head_lb (f : Nat) (r : List Char) :
    parseVal (f + 1) ('[' :: r) =
      (match skipWs r with
       | [] => none
       | c2 :: r2 =>
         if c2 = ']' then some (Json.arr [], r2)
         else (parseItems f (c2 :: r2)).map (fun p => (Json.arr p.1, p.2))) := by
  rw [parseVal.eq_def]
  rfl

/-- `parseVal` dispatch on an opening brace. -/
theorem parseVal_head_ob (f : Nat) (r : List Char) :
    parseVal (f + 1) (lbrace :: r) =
      (match skipWs r with
       | [] => none
       | c2 :: r2 =>
         if c2 = rbrace then some (Json.obj [], r2)
         else (parseFields f [] (c2 :: r2)).map
           (fun p => (Json.obj p.1, p.2))) := by
  rw [parseVal.eq_def]
  rfl

/-- `parseVal` dispatch on any other non-whitespace head: the numeric case. -/
theorem parseVal_head_other (f : Nat) (c : Char) (r : List Char)
    (hws : isWsChar c = false) (h1 : ¬(c = 'n')) (h2 : ¬(c = 't'))
    (h3 : ¬(c = 'f')) (h4 : ¬(c = '"')) (h5 : ¬(c = '[')) (h6 : ¬(c = lbrace)) :
    parseVal (f + 1) (c :: r) = parseNum (c :: r) := by
  rw [parseVal.eq_def]
  rw [skipWs_not_ws c r hws]
  simp only [if_neg h1, if_neg h2, if_neg h3, if_neg h4, if_neg h5, if_neg h6]

/-- Rendering unfold: null. -/
theorem renderJson_null (lvl : Nat) :
    renderJson lvl .null = ['n', 'u', 'l', 'l'] := rfl

/-- Rendering unfold: true. -/
theorem renderJson_true (lvl : Nat) :
    renderJson lvl (.bool true) = ['t', 'r', 'u', 'e'] := rfl

/-- Rendering unfold: false. -/
theorem renderJson_false (lvl : Nat) :
    renderJson lvl (.bool false) = ['f', 'a', 'l', 's', 'e'] := rfl

/-- Rendering unfold: numbers. -/
theorem renderJson_num (lvl : Nat) (n : Int) :
    renderJson lvl (.num n) = (toString n).data := rfl

/-- Rendering unfold: strings. -/
theorem renderJson_str (lvl : Nat) (s : String) :
    renderJson lvl (.str s) = renderStr s := rfl

/-- Rendering unfold: the empty array. -/
theorem renderJson_arr_nil (lvl : Nat) :
    renderJson lvl (.arr []) = ['[', ']'] := rfl

/-- Rendering unfold: a non-empty array. -/
theorem renderJson_arr_cons (lvl : Nat) (x : Json) (xs : List Json) :
    renderJson lvl (.arr (x :: xs)) =
      '[' :: '\n' :: (renderItems (lvl + 1) (x :: xs) ++
        '\n' :: (pad lvl ++ [']'])) := rfl

/-- Rendering unfold: the empty object. -/
theorem renderJson_obj_nil (lvl : Nat) :
    renderJson lvl (.obj []) = [lbrace, rbrace] := rfl

/-- Rendering unfold: a non-empty object. -/
theorem renderJson_obj_cons (lvl : Nat) (kv : String × Json)
    (kvs : List (String × Json)) :
    renderJson lvl (.obj (kv :: kvs)) =
      lbrace :: '\n' :: (renderFields (lvl + 1) (kv :: kvs) ++
        '\n' :: (pad lvl ++ [rbrace])) := rfl

/-- Rendering unfold: a one-item list. -/
theorem renderItems_one (lvl : Nat) (x : Json) :
    renderItems lvl [x] = pad lvl ++ renderJson lvl x := rfl

/-- Rendering unfold: a multi-item list. -/
theorem renderItems_cons2 (lvl : Nat) (x y : Json) (ys : List Json) :
    renderItems lvl (x :: y :: ys) =
      pad lvl ++ renderJson lvl x ++ ',' :: '\n' :: renderItems lvl (y :: ys) :=
  rfl

/-- Rendering unfold: a one-field list. -/
theorem renderFields_one (lvl : Nat) (k : String) (v : Json) :
    renderFields lvl [(k, v)] =
      pad lvl ++ renderStr k ++ ':' :: ' ' :: renderJson lvl v := rfl

/-- Rendering unfold: a multi-field list. -/
theorem renderFields_cons2 (lvl : Nat) (k : String) (v : Json)
    (l : String × Json) (ls : List (String × Json)) :
    renderFields lvl ((k, v) :: l :: ls) =
      pad lvl ++ renderStr k ++ ':' :: ' ' :: renderJson lvl v ++
        ',' :: '\n' :: renderFields lvl (l :: ls) := rfl

/-- Tail unfold: after the last item. -/
theorem itemsTail_nil (lvl lvl2 : Nat) (rest : List Char) :
    itemsTail lvl lvl2 [] rest = '\n' :: (pad lvl2 ++ ']' :: rest) := rfl

/-- Tail unfold: before a further item. -/
theorem itemsTail_cons (lvl lvl2 : Nat) (y : Json) (ys : List Json)
    (rest : List Char) :
    itemsTail lvl lvl2 (y :: ys) rest =
      ',' :: '\n' :: (pad lvl ++ renderJson lvl y ++
        itemsTail lvl lvl2 ys rest) := rfl

/-- Tail unfold: after the last field. -/
theorem fieldsTail_nil (lvl lvl2 : Nat) (rest : List Char) :
    fieldsTail lvl lvl2 [] rest = '\n' :: (pad lvl2 ++ rbrace :: rest) := rfl

/-- Tail unfold: before a further field. -/
theorem fieldsTail_cons (lvl lvl2 : Nat) (k2 : String) (v2 : Json)
    (ls : List (String × Json)) (rest : List Char) :
    fieldsTail lvl lvl2 ((k2, v2) :: ls) rest =
      ',' :: '\n' :: (pad lvl ++ renderStr k2 ++ ':' :: ' ' ::
        renderJson lvl v2 ++ fieldsTail lvl lvl2 ls rest) := rfl

/-- A rendered item list followed by its closing line regroups as the first
item followed by its tail. -/
theorem renderItems_decomp (lvl lvl2 : Nat) : ∀ (xs : List Json) (x : Json)
    (rest : List Char),
    renderItems lvl (x :: xs) ++ '\n' :: (pad lvl2 ++ (']' :: rest)) =
      pad lvl ++ (renderJson lvl x ++ itemsTail lvl lvl2 xs rest) := by
  intro xs
  induction xs with
  | nil =>
    intro x rest
    rw [renderItems_one, itemsTail_nil]
    simp [List.append_assoc]
  | cons y ys ih =>
    intro x rest
    rw [renderItems_cons2, itemsTail_cons]
    have h := ih y rest
    simp only [List.append_assoc, List.cons_append] at h ⊢
    rw [h]

/-- A rendered field list followed by its closing line regroups as the first
field followed by its tail. -/
theorem renderFields_decomp (lvl lvl2 : Nat) :
    ∀ (kvs : List (String × Json)) (k : String) (v : Json) (rest : List Char),
    renderFields lvl ((k, v) :: kvs) ++ '\n' :: (pad lvl2 ++ (rbrace :: rest)) =
      pad lvl ++ (renderStr k ++ ':' :: ' ' ::
        (renderJson lvl v ++ fieldsTail lvl lvl2 kvs rest)) := by
  intro kvs
  induction kvs with
  | nil =>
    intro k v rest
    rw [renderFields_one, fieldsTail_nil]
    simp [List.append_assoc]
  | cons l ls ih =>
    intro k v rest
    obtain ⟨k2, v2⟩ := l
    rw [renderFields_cons2, fieldsTail_cons]
    have h := ih k2 v2 rest
    simp only [List.append_assoc, List.cons_append] at h ⊢
    rw [h]

/-- An item tail never starts with a digit. -/
theorem itemsTail_head_nondigit (lvl lvl2 : Nat) (xs : List Json)
    (rest : List Char) :
    ∀ c cs, itemsTail lvl lvl2 xs rest = c :: cs → isDigitChar c = false := by
  cases xs with
  | nil =>
    intro c cs h
    rw [itemsTail_nil] at h
    injection h with h1 _
    rw [← h1]
    decide
  | cons y ys =>
    intro c cs h
    rw [itemsTail_cons] at h
    injection h with h1 _
    rw [← h1]
    decide

/-- A field tail never starts with a digit. -/
theorem fieldsTail_head_nondigit (lvl lvl2 : Nat)
    (kvs : List (String × Json)) (rest : List Char) :
    ∀ c cs, fieldsTail lvl lvl2 kvs rest = c :: cs → isDigitChar c = false := by
  cases kvs with
  | nil =>
    intro c cs h
    rw [fieldsTail_nil] at h
    injection h with h1 _
    rw [← h1]
    decide
  | cons l ls =>
    obtain ⟨k2, v2⟩ := l
    intro c cs h
    rw [fieldsTail_cons] at h
    injection h with h1 _
    rw [← h1]
    decide

/-- `toString` of an integer starts with a minus sign or a digit. -/
theorem toString_int_head (n : Int) :
    ∃ c cs, (toString n).data = c :: cs ∧
      (c = '-' ∨ isDigitChar c = true) := by
  cases n with
  | ofNat m =>
    obtain ⟨hne, hdig, _⟩ := toDigits_spec m
    rw [show (toString (Int.ofNat m)).data = Nat.toDigits 10 m from rfl]
    cases hdl : Nat.toDigits 10 m with
    | nil => exact absurd hdl hne
    | cons c cs =>
      rw [hdl] at hdig
      simp only [allDigits, List.all_cons, Bool.and_eq_true] at hdig
      exact ⟨c, cs, rfl, Or.inr hdig.1⟩
  | negSucc m =>
    exact ⟨'-', Nat.toDigits 10 (m + 1),
      show (toString (Int.negSucc m)).data =
        '-' :: Nat.toDigits 10 (m + 1) from rfl, Or.inl rfl⟩

/-- A rendered value starts with a non-whitespace character that is not a
closing bracket, closing brace, or comma. -/
theorem renderJson_head (lvl : Nat) (j : Json) :
    ∃ c cs, renderJson lvl j = c :: cs ∧ isWsChar c = false ∧
      c ≠ ']' ∧ c ≠ ',' ∧ c ≠ rbrace := by
  cases j with
  | null => exact ⟨'n', _, rfl, by decide, by decide, by decide, by decide⟩
  | bool b =>
    cases b
    · exact ⟨'f', _, rfl, by decide, by decide, by decide, by decide⟩
    · exact ⟨'t', _, rfl, by decide, by decide, by decide, by decide⟩
  | num n =>
    obtain ⟨c, cs, hdata, hc⟩ := toString_int_head n
    refine ⟨c, cs, ?_, ?_⟩
    · rw [renderJson_num, hdata]
    · rcases hc with rfl | hd
      · exact ⟨by decide, by decide, by decide, by decide⟩
      · obtain ⟨f1, f2, f3, _, _, _, _, _, _, _, f11, _⟩ :=
          isDigitChar_facts c hd
        exact ⟨f1, f2, f3, f11⟩
  | str s => exact ⟨'"', _, rfl, by decide, by decide, by decide, by decide⟩
  | arr xs =>
    cases xs with
    | nil => exact ⟨'[', _, rfl, by decide, by decide, by decide, by decide⟩
    | cons x xs =>
      exact ⟨'[', _, renderJson_arr_cons lvl x xs, by decide, by decide,
        by decide, by decide⟩
  | obj kvs =>
    cases kvs with
    | nil =>
      exact ⟨lbrace, _, rfl, by decide, by decide, by decide, by decide⟩
    | cons kv kvs =>
      exact ⟨lbrace, _, renderJson_obj_cons lvl kv kvs, by decide, by decide,
        by decide, by decide⟩

/-- Assigning a fresh key appends the binding. -/
theorem insertKV_fresh : ∀ (kvs : List (String × Json)) (k : String)
    (v : Json), k ∉ kvs.map Prod.fst →
    Json.insertKV kvs k v = kvs ++ [(k, v)] := by
  intro kvs
  induction kvs with
  | nil => intro k v _; rfl
  | cons kv rest ih =>
    intro k v h
    obtain ⟨l, w⟩ := kv
    simp only [List.map_cons, List.mem_cons, not_or] at h
    simp only [Json.insertKV, if_neg (Ne.symm h.1), List.cons_append,
      ih k v h.2]

/-- Assigning a field list whose keys are fresh and mutually distinct into
an accumulator appends it unchanged: what `parseFields` computes for a
rendered well-formed object. -/
theorem foldInsert_nodup : ∀ (kvs acc : List (String × Json)),
    (acc.map Prod.fst ++ kvs.map Prod.fst).Nodup →
    foldInsert acc kvs = acc ++ kvs := by
  intro kvs
  induction kvs with
  | nil => intro acc _; simp [foldInsert]
  | cons kv rest ih =>
    intro acc h
    obtain ⟨k, v⟩ := kv
    have hk : k ∉ acc.map Prod.fst := by
      intro hmem
      rw [List.nodup_append] at h
      exact h.2.2 hmem (by simp)
    simp only [foldInsert, insertKV_fresh acc k v hk]
    rw [ih (acc ++ [(k, v)]) (by simpa [List.append_assoc] using h)]
    simp

/-- The first item costs no more than the whole run. -/
theorem jcostItems_cons_ge (x : Json) (xs : List Json) :
    jcost x + 1 ≤ jcostItems (x :: xs) := by
  cases xs with
  | nil => exact Nat.le_of_eq rfl
  | cons y ys =>
    rw [show jcostItems (x :: y :: ys) =
      jcost x + 1 + jcostItems (y :: ys) from rfl]
    omega

/-- The first field costs no more than the whole run. -/
theorem jcostFields_cons_ge (k : String) (v : Json)
    (kvs : List (String × Json)) :
    jcost v + 1 ≤ jcostFields ((k, v) :: kvs) := by
  cases kvs with
  | nil => exact Nat.le_of_eq rfl
  | cons l ls =>
    obtain ⟨k2, v2⟩ := l
    rw [show jcostFields ((k, v) :: (k2, v2) :: ls) =
      jcost v + 1 + jcostFields ((k2, v2) :: ls) from rfl]
    omega

mutual

/-- The fuel a rendered value needs is below its rendered length. -/
theorem jcost_le_len : ∀ (lvl : Nat) (j : Json),
    jcost j + 1 ≤ (renderJson lvl j).length
  | _, .null => by
    rw [renderJson_null, show jcost Json.null = 0 from rfl]
    simp
  | _, .bool true => by
    rw [renderJson_true, show jcost (Json.bool true) = 0 from rfl]
    simp
  | _, .bool false => by
    rw [renderJson_false, show jcost (Json.bool false) = 0 from rfl]
    simp
  | lvl, .num n => by
    obtain ⟨c, cs, hdata, _⟩ := toString_int_head n
    rw [renderJson_num, hdata, show jcost (Json.num n) = 0 from rfl]
    simp
  | lvl, .str s => by
    rw [renderJson_str, show jcost (Json.str s) = 0 from rfl,
      show renderStr s = '"' :: (escChars s.data ++ ['"']) from rfl]
    simp
  | _, .arr [] => by
    rw [renderJson_arr_nil, show jcost (Json.arr []) = 0 from rfl]
    simp
  | lvl, .arr (x :: xs) => by
    have h := jcostItems_le (lvl + 1) x xs
    rw [renderJson_arr_cons,
      show jcost (Json.arr (x :: xs)) = jcostItems (x :: xs) + 1 from rfl]
    simp only [List.length_cons, List.length_append, List.length_nil]
    omega
  | _, .obj [] => by
    rw [renderJson_obj_nil, show jcost (Json.obj []) = 0 from rfl]
    simp
  | lvl, .obj (kv :: kvs) => by
    have h := jcostFields_le (lvl + 1) kv kvs
    rw [renderJson_obj_cons,
      show jcost (Json.obj (kv :: kvs)) = jcostFields (kv :: kvs) + 1 from rfl]
    simp only [List.length_cons, List.length_append, List.length_nil]
    omega
termination_by lvl j => sizeOf j

/-- The fuel rendered items need is below their rendered length. -/
theorem jcostItems_le : ∀ (lvl : Nat) (x : Json) (xs : List Json),
    jcostItems (x :: xs) ≤ (renderItems lvl (x :: xs)).length
  | lvl, x, [] => by
    have h := jcost_le_len lvl x
    rw [show jcostItems [x] = jcost x + 1 from rfl, renderItems_one]
    simp only [List.length_append]
    omega
  | lvl, x, y :: ys => by
    have h1 := jcost_le_len lvl x
    have h2 := jcostItems_le lvl y ys
    rw [show jcostItems (x :: y :: ys) =
        jcost x + 1 + jcostItems (y :: ys) from rfl,
      renderItems_cons2]
    simp only [List.length_append, List.length_cons]
    omega
termination_by lvl x xs => sizeOf x + sizeOf xs

/-- The fuel rendered fields need is below their rendered length. -/
theorem jcostFields_le : ∀ (lvl : Nat) (kv : String × Json)
    (kvs : List (String × Json)),
    jcostFields (kv :: kvs) ≤ (renderFields lvl (kv :: kvs)).length
  | lvl, (k, v), [] => by
    have h := jcost_le_len lvl v
    rw [show jcostFields [(k, v)] = jcost v + 1 from rfl, renderFields_one]
    simp only [List.length_append, List.length_cons]
    omega
  | lvl, (k, v), l :: ls => by
    have h1 := jcost_le_len lvl v
    have h2 := jcostFields_le lvl l ls
    rw [show jcostFields ((k, v) :: l :: ls) =
        jcost v + 1 + jcostFields (l :: ls) from rfl,
      renderFields_cons2]
    simp only [List.length_append, List.length_cons]
    omega
termination_by lvl kv kvs => sizeOf kv + sizeOf kvs

end

/-- Completeness of the reader on rendered documents: at any sufficient
fuel, `parseVal` recovers a rendered well-formed value exactly and leaves
the remainder; `parseItems` and `parseFields` recover rendered item and
field runs up to their closing line. -/
theorem parse_render_complete : ∀ (fuel : Nat),
    (∀ (j : Json) (lvl : Nat) (rest : List Char), Json.wf j = true →
      jcost j + 1 ≤ fuel →
      (∀ c cs, rest = c :: cs → isDigitChar c = false) →
      parseVal fuel (renderJson lvl j ++ rest) = some (j, rest)) ∧
    (∀ (x : Json) (xs : List Json) (lvl lvl2 : Nat) (rest : List Char),
      Json.wf x = true → Json.wfList xs = true →
      jcostItems (x :: xs) + 1 ≤ fuel →
      parseItems fuel (renderJson lvl x ++ itemsTail lvl lvl2 xs rest) =
        some (x :: xs, rest)) ∧
    (∀ (k : String) (v : Json) (kvs : List (String × Json)) (lvl lvl2 : Nat)
        (acc : List (String × Json)) (rest : List Char),
      Json.wf v = true → Json.wfFields kvs = true →
      jcostFields ((k, v) :: kvs) + 1 ≤ fuel →
      parseFields fuel acc
          (renderStr k ++ ':' :: ' ' ::
            (renderJson lvl v ++ fieldsTail lvl lvl2 kvs rest)) =
        some (foldInsert acc ((k, v) :: kvs), rest)) := by
  intro fuel
  induction fuel with
  | zero => refine ⟨?_, ?_, ?_⟩ <;> (intros; omega)
  | succ f ih =>
    obtain ⟨ihV, ihI, ihF⟩ := ih
    refine ⟨?_, ?_, ?_⟩
    · intro j lvl rest hwf hfuel hrest
      cases j with
      | null =>
        rw [renderJson_null]
        simp only [List.cons_append, List.nil_append]
        rw [parseVal_head_n]
        rfl
      | bool b =>
        cases b
        · rw [renderJson_false]
          simp only [List.cons_append, List.nil_append]
          rw [parseVal_head_f]
          rfl
        · rw [renderJson_true]
          simp only [List.cons_append, List.nil_append]
          rw [parseVal_head_t]
          rfl
      | num n =>
        rw [renderJson_num]
        obtain ⟨c, cs, hdata, hc⟩ := toString_int_head n
        rw [hdata, List.cons_append]
        rcases hc with rfl | hd
        · rw [parseVal_head_other f '-' _ (by decide) (by decide) (by decide)
            (by decide) (by decide) (by decide) (by decide)]
          rw [← List.cons_append, ← hdata]
          exact parseNum_render n rest hrest
        · obtain ⟨f1, _, _, _, f5, f6, f7, f8, f9, f10, _, _⟩ :=
            isDigitChar_facts c hd
          rw [parseVal_head_other f c _ f1 f5 f6 f7 f8 f9 f10]
          rw [← List.cons_append, ← hdata]
          exact parseNum_render n rest hrest
      | str s =>
        rw [renderJson_str]
        rw [show renderStr s ++ rest =
          '"' :: (escChars s.data ++ '"' :: rest) from by simp [renderStr]]
        rw [parseVal_head_q, scanStr_escChars]
        simp [strMk_data]
      | arr xs =>
        cases xs with
        | nil =>
          rw [renderJson_arr_nil]
          simp only [List.cons_append, List.nil_append]
          rw [parseVal_head_lb]
          rw [skipWs_not_ws ']' rest (by decide)]
          simp
        | cons x xs =>
          have hw2 : Json.wf x = true ∧ Json.wfList xs = true := by
            have h2 : (Json.wf x && Json.wfList xs) = true := hwf
            simpa [Bool.and_eq_true] using h2
          rw [renderJson_arr_cons]
          simp only [List.cons_append, List.append_assoc,
            List.singleton_append, List.nil_append]
          rw [parseVal_head_lb]
          obtain ⟨c, cs, hx, hnws, hne1, _, _⟩ := renderJson_head (lvl + 1) x
          have hsw : skipWs ('\n' :: (renderItems (lvl + 1) (x :: xs) ++
              '\n' :: (pad lvl ++ (']' :: rest)))) =
              c :: (cs ++ itemsTail (lvl + 1) lvl xs rest) := by
            rw [skipWs_cons_ws _ _ (by decide), renderItems_decomp,
              skipWs_append _ _ (allWs_pad (lvl + 1)), hx, List.cons_append,
              skipWs_not_ws _ _ hnws]
          simp only [hsw, if_neg hne1]
          rw [← List.cons_append, ← hx]
          rw [ihI x xs (lvl + 1) lvl rest hw2.1 hw2.2 (by
            have hj : jcost (Json.arr (x :: xs)) =
              jcostItems (x :: xs) + 1 := rfl
            omega)]
          rfl
      | obj kvs =>
        cases kvs with
        | nil =>
          rw [renderJson_obj_nil]
          simp only [List.cons_append, List.nil_append]
          rw [parseVal_head_ob]
          rw [skipWs_not_ws rbrace rest (by decide)]
          simp
        | cons kv kvs =>
          obtain ⟨k, v⟩ := kv
          have hw2 : (decide ((((k, v) :: kvs).map Prod.fst).Nodup) &&
              Json.wfFields ((k, v) :: kvs)) = true := hwf
          rw [Bool.and_eq_true, decide_eq_true_iff] at hw2
          obtain ⟨hnodup, hflds⟩ := hw2
          have hw3 : Json.wf v = true ∧ Json.wfFields kvs = true := by
            have h2 : (Json.wf v && Json.wfFields kvs) = true := hflds
            simpa [Bool.and_eq_true] using h2
          rw [renderJson_obj_cons]
          simp only [List.cons_append, List.append_assoc,
            List.singleton_append, List.nil_append]
          rw [parseVal_head_ob]
          have hsw : skipWs ('\n' :: (renderFields (lvl + 1) ((k, v) :: kvs) ++
              '\n' :: (pad lvl ++ (rbrace :: rest)))) =
              '"' :: ((escChars k.data ++ ['"']) ++ (':' :: ' ' ::
                (renderJson (lvl + 1) v ++
                  fieldsTail (lvl + 1) lvl kvs rest))) := by
            rw [skipWs_cons_ws _ _ (by decide), renderFields_decomp,
              skipWs_append _ _ (allWs_pad (lvl + 1)),
              show renderStr k = '"' :: (escChars k.data ++ ['"']) from rfl,
              List.cons_append, skipWs_not_ws _ _ (by decide)]
          simp only [hsw, show (('"' : Char) = rbrace) = False from by decide]
          rw [if_neg (by simp)]
          have hfld := ihF k v kvs (lvl + 1) lvl [] rest hw3.1 hw3.2 (by
            have hj : jcost (Json.obj ((k, v) :: kvs)) =
              jcostFields ((k, v) :: kvs) + 1 := rfl
            omega)
          rw [show renderStr k ++ ':' :: ' ' ::
              (renderJson (lvl + 1) v ++ fieldsTail (lvl + 1) lvl kvs rest) =
              '"' :: ((escChars k.data ++ ['"']) ++ (':' :: ' ' ::
                (renderJson (lvl + 1) v ++ fieldsTail (lvl + 1) lvl kvs rest)))
            from by simp [renderStr]] at hfld
          rw [hfld]
          rw [foldInsert_nodup ((k, v) :: kvs) [] (by simpa using hnodup)]
          rfl
    · intro x xs lvl lvl2 rest hwx hwxs hfuel
      rw [parseItems_succ]
      have hpv : parseVal f (renderJson lvl x ++ itemsTail lvl lvl2 xs rest) =
          some (x, itemsTail lvl lvl2 xs rest) :=
        ihV x lvl _ hwx
          (by have := jcostItems_cons_ge x xs; omega)
          (itemsTail_head_nondigit lvl lvl2 xs rest)
      simp only [hpv]
      cases xs with
      | nil =>
        have hsw : skipWs (itemsTail lvl lvl2 [] rest) = ']' :: rest := by
          rw [itemsTail_nil, skipWs_cons_ws _ _ (by decide),
            skipWs_append _ _ (allWs_pad lvl2), skipWs_not_ws _ _ (by decide)]
        simp only [hsw]
        simp
      | cons y ys =>
        have hsw : skipWs (itemsTail lvl lvl2 (y :: ys) rest) =
            ',' :: ('\n' :: (pad lvl ++ (renderJson lvl y ++
              itemsTail lvl lvl2 ys rest))) := by
          rw [itemsTail_cons, skipWs_not_ws _ _ (by decide)]
          simp [List.append_assoc]
        simp only [hsw]
        have hwy : Json.wf y = true ∧ Json.wfList ys = true := by
          have h2 : (Json.wf y && Json.wfList ys) = true := hwxs
          simpa [Bool.and_eq_true] using h2
        have hrec : parseItems f ('\n' :: (pad lvl ++ (renderJson lvl y ++
            itemsTail lvl lvl2 ys rest))) = some (y :: ys, rest) := by
          rw [parseItems_skipWs, skipWs_cons_ws _ _ (by decide),
            skipWs_append _ _ (allWs_pad lvl)]
          obtain ⟨c, cs, hy, hnws, _, _, _⟩ := renderJson_head lvl y
          rw [hy, List.cons_append, skipWs_not_ws _ _ hnws,
            ← List.cons_append, ← hy]
          exact ihI y ys lvl lvl2 rest hwy.1 hwy.2 (by
            have hj : jcostItems (x :: y :: ys) =
              jcost x + 1 + jcostItems (y :: ys) := rfl
            omega)
        simp [hrec]
    · intro k v kvs lvl lvl2 acc rest hv hkvs hfuel
      rw [parseFields_succ]
      have hsw : skipWs (renderStr k ++ ':' :: ' ' ::
          (renderJson lvl v ++ fieldsTail lvl lvl2 kvs rest)) =
          '"' :: ((escChars k.data ++ ['"']) ++ (':' :: ' ' ::
            (renderJson lvl v ++ fieldsTail lvl lvl2 kvs rest))) := by
        rw [show renderStr k = '"' :: (escChars k.data ++ ['"']) from rfl,
          List.cons_append, skipWs_not_ws _ _ (by decide)]
      simp only [hsw]
      have hscan : scanStr [] ((escChars k.data ++ ['"']) ++ (':' :: ' ' ::
          (renderJson lvl v ++ fieldsTail lvl lvl2 kvs rest))) =
          some (k, ':' :: ' ' ::
            (renderJson lvl v ++ fieldsTail lvl lvl2 kvs rest)) := by
        rw [List.append_assoc, List.singleton_append, scanStr_escChars]
        simp [strMk_data]
      simp only [hscan]
      have hsw2 : skipWs (':' :: ' ' ::
          (renderJson lvl v ++ fieldsTail lvl lvl2 kvs rest)) =
          ':' :: (' ' :: (renderJson lvl v ++
            fieldsTail lvl lvl2 kvs rest)) :=
        skipWs_not_ws _ _ (by decide)
      simp only [hsw2]
      have hpv : parseVal f (' ' :: (renderJson lvl v ++
          fieldsTail lvl lvl2 kvs rest)) =
          some (v, fieldsTail lvl lvl2 kvs rest) := by
        rw [parseVal_skipWs_all f, skipWs_cons_ws _ _ (by decide),
          ← parseVal_skipWs_all f]
        exact ihV v lvl _ hv
          (by have := jcostFields_cons_ge k v kvs; omega)
          (fieldsTail_head_nondigit lvl lvl2 kvs rest)
      simp only [hpv]
      cases kvs with
      | nil =>
        have hsw3 : skipWs (fieldsTail lvl lvl2 [] rest) = rbrace :: rest := by
          rw [fieldsTail_nil, skipWs_cons_ws _ _ (by decide),
            skipWs_append _ _ (allWs_pad lvl2), skipWs_not_ws _ _ (by decide)]
        simp only [hsw3]
        rw [show foldInsert acc [(k, v)] = Json.insertKV acc k v from rfl]
        simp [show (rbrace = ',') = False from by decide]
      | cons l ls =>
        obtain ⟨k2, v2⟩ := l
        have hsw3 : skipWs (fieldsTail lvl lvl2 ((k2, v2) :: ls) rest) =
            ',' :: ('\n' :: (pad lvl ++ (renderStr k2 ++ ':' :: ' ' ::
              (renderJson lvl v2 ++ fieldsTail lvl lvl2 ls rest)))) := by
          rw [fieldsTail_cons, skipWs_not_ws _ _ (by decide)]
          simp [List.append_assoc]
        simp only [hsw3]
        have hw2 : Json.wf v2 = true ∧ Json.wfFields ls = true := by
          have h2 : (Json.wf v2 && Json.wfFields ls) = true := hkvs
          simpa [Bool.and_eq_true] using h2
        have hrec : parseFields f (Json.insertKV acc k v)
            ('\n' :: (pad lvl ++ (renderStr k2 ++ ':' :: ' ' ::
              (renderJson lvl v2 ++ fieldsTail lvl lvl2 ls rest)))) =
            some (foldInsert (Json.insertKV acc k v) ((k2, v2) :: ls),
              rest) := by
          rw [parseFields_skipWs, skipWs_cons_ws _ _ (by decide),
            skipWs_append _ _ (allWs_pad lvl)]
          have hfld := ihF k2 v2 ls lvl lvl2 (Json.insertKV acc k v) rest
            hw2.1 hw2.2 (by
              have hj : jcostFields ((k, v) :: (k2, v2) :: ls) =
                jcost v + 1 + jcostFields ((k2, v2) :: ls) := rfl
              omega)
          rw [show renderStr k2 ++ ':' :: ' ' ::
              (renderJson lvl v2 ++ fieldsTail lvl lvl2 ls rest) =
              '"' :: ((escChars k2.data ++ ['"']) ++ (':' :: ' ' ::
                (renderJson lvl v2 ++ fieldsTail lvl lvl2 ls rest)))
            from by simp [renderStr]] at hfld
          rw [show skipWs (renderStr k2 ++ (':' :: ' ' ::
              (renderJson lvl v2 ++ fieldsTail lvl lvl2 ls rest))) =
              '"' :: ((escChars k2.data ++ ['"']) ++ (':' :: ' ' ::
                (renderJson lvl v2 ++ fieldsTail lvl lvl2 ls rest)))
            from by
              rw [show renderStr k2 =
                  '"' :: (escChars k2.data ++ ['"']) from rfl,
                List.cons_append, skipWs_not_ws _ _ (by decide)]]
          exact hfld
        rw [show foldInsert acc ((k, v) :: (k2, v2) :: ls) =
          foldInsert (Json.insertKV acc k v) ((k2, v2) :: ls) from rfl]
        simp [hrec]

/-! ## C8 - persistence round-trip

`save_metrics_to_file` writes `json.dump(metrics, f, indent=4,
ensure_ascii=False)` (lines 422-441 of `monitor_ece_w_api_key.py`; the
simple variant's lines 117-123 write the same document).  The report the
collector hands over is built exclusively from Python dicts, so no object
repeats a key (`Json.wf`).  Parsing the written content back with
`json.loads` recovers the report exactly. -/

/-- C8: for every well-formed report the persister successfully serializes
(the write succeeds and produces the file content), parsing the written
JSON text back yields a value deep-equal to the in-memory report. -/
theorem C8_persist_roundtrip (report : Json) (writeOk : Bool)
    (content : String) (hwf : Json.wf report = true)
    (hw : save_metrics_to_file report writeOk = some content) :
    json_loads content = some report := by
  have hcontent : content = json_dumps report := by
    cases writeOk with
    | false => simp [save_metrics_to_file] at hw
    | true =>
      simp [save_metrics_to_file] at hw
      exact hw.symm
  subst hcontent
  have hdata : (json_dumps report).data = renderJson 0 report := rfl
  have hpv : parseVal ((json_dumps report).data.length + 1)
      (json_dumps report).data = some (report, []) := by
    rw [hdata]
    have h := (parse_render_complete ((renderJson 0 report).length + 1)).1
      report 0 [] hwf (by have := jcost_le_len 0 report; omega)
      (fun c cs hc => nomatch hc)
    simpa using h
  rw [json_loads, hpv]
  rfl

/-- C8, witness: the round-trip at the concrete sample report, with
well-formedness and the successful write discharged concretely. -/
theorem C8_persist_roundtrip_witness :
    Json.wf sampleReport = true ∧
    save_metrics_to_file sampleReport true = some (json_dumps sampleReport) ∧
    json_loads (json_dumps sampleReport) = some sampleReport :=
  ⟨by decide, rfl,
    C8_persist_roundtrip sampleReport true (json_dumps sampleReport)
      (by decide) rfl⟩

end ECE
